import Mathlib

/-!
Verification of the `raytrace` repository's core geometry and rendering code
against its natural-language specification.

The Python sources are shallowly embedded: scalars (Python floats) are
modelled as real numbers `ℝ`, and quantities that can legitimately hold the
IEEE infinity (the `INFINITY` constant, ray distance bounds, the
axis-aligned-box slab accumulator, bounding-box coordinates) are modelled as
extended reals `EReal`, whose order structure (`⊤ < ⊤` is false, `x < ⊤` for
every real `x`, ...) matches IEEE comparisons on `inf` for the expressions
that actually occur in the code.  Python `None` is modelled by `Option`;
a Python method that can raise an exception is modelled with an outer
`Option`/`Except` layer whose `none`/`error` value marks the raise.
-/

open Classical

noncomputable section

namespace Raytrace

/-- Modelled from the spec: the repository imports `INFINITY` from a
`constants` module that is not present under `src/`; per the spec it is the
IEEE positive infinity (unbounded rays default to `max_distance = +∞`, and
planes get an "infinite" bounding box with all bounds `±∞`), so it is
embedded as the top element of `EReal`. -/
def INFINITY : EReal := ⊤

/-- Modelled from the spec: `INTERSECTION_TOLERANCE` also comes from the
missing `constants` module; the spec describes it only as "a small threshold
used to treat near-zero or near-equal floating values as exactly zero/equal".
Only its strict positivity is used by any theorem below. -/
def INTERSECTION_TOLERANCE : ℝ := 1 / 1000000000

/-- `vector.Vector`: a 3-dimensional vector with real components. -/
structure Vec3 where
  x : ℝ
  y : ℝ
  z : ℝ

namespace Vec3

def add (a b : Vec3) : Vec3 := ⟨a.x + b.x, a.y + b.y, a.z + b.z⟩

def sub (a b : Vec3) : Vec3 := ⟨a.x - b.x, a.y - b.y, a.z - b.z⟩

def neg (a : Vec3) : Vec3 := ⟨-a.x, -a.y, -a.z⟩

/-- `Vector.__mul__` with a scalar (and `__rmul__`). -/
def smul (t : ℝ) (a : Vec3) : Vec3 := ⟨a.x * t, a.y * t, a.z * t⟩

/-- `Vector.__truediv__` by a scalar. -/
def div (a : Vec3) (t : ℝ) : Vec3 := ⟨a.x / t, a.y / t, a.z / t⟩

/-- `Vector.__matmul__`: the dot product. -/
def dot (a b : Vec3) : ℝ := a.x * b.x + a.y * b.y + a.z * b.z

/-- `Vector.norm2`. -/
def norm2 (a : Vec3) : ℝ := a.x * a.x + a.y * a.y + a.z * a.z

/-- `Vector.norm`. -/
def norm (a : Vec3) : ℝ := Real.sqrt a.norm2

/-- `Vector.normalized` (and the in-place `normalize`, which produces the
same value): divide by the norm.  Python raises `ZeroDivisionError` on the
zero vector; here division by zero yields junk, and every theorem that
depends on a normalization supplies a nonzero argument. -/
def normalized (a : Vec3) : Vec3 := a.div a.norm

/-- `Vector.reflected`. -/
def reflected (a n : Vec3) : Vec3 := a.sub (smul (2 * a.dot n) n)

/-- `Vector.project_out` with the default `normalized=False`: remove the
component of `a` along `other` (re-normalizing `other` first). -/
def project_out (a other : Vec3) : Vec3 :=
  let unit := other.normalized
  a.sub (smul (a.dot unit) unit)

/-- `Vector.cross`. -/
def cross (a b : Vec3) : Vec3 :=
  ⟨a.y * b.z - b.y * a.z, a.z * b.x - b.z * a.x, a.x * b.y - b.x * a.y⟩

def zero : Vec3 := ⟨0, 0, 0⟩

/-- `Vector.__getitem__` / `as_tuple`: component access by index 0, 1, 2. -/
def get (a : Vec3) : Fin 3 → ℝ
  | 0 => a.x
  | 1 => a.y
  | 2 => a.z

end Vec3

/-- `ray.Ray`: `source`, unit `direction`, and the open interval
`(min_distance, max_distance)` of valid hit parameters.  The bounds are
Python floats that default to `0.0` and `INFINITY`, so they are embedded as
extended reals. -/
structure Ray where
  source : Vec3
  direction : Vec3
  min_distance : EReal
  max_distance : EReal

namespace Ray

/-- `Ray.__init__`: the constructor normalizes the direction. -/
def make (source direction : Vec3) (min_distance : EReal := ((0 : ℝ) : EReal))
    (max_distance : EReal := INFINITY) : Ray :=
  ⟨source, direction.normalized, min_distance, max_distance⟩

/-- `Ray.point`: `source + distance * direction`. -/
def point (r : Ray) (distance : ℝ) : Vec3 :=
  r.source.add (Vec3.smul distance r.direction)

/-- `Ray.__neg__`: same source and bounds, opposite direction (built through
the constructor, which re-normalizes). -/
def negate (r : Ray) : Ray :=
  make r.source r.direction.neg r.min_distance r.max_distance

/-- The code's recurring in-range test `ray.min_distance < d < ray.max_distance`
for a real candidate distance. -/
def inRange (r : Ray) (d : ℝ) : Prop :=
  r.min_distance < (d : EReal) ∧ (d : EReal) < r.max_distance

/-- The same chained comparison when the candidate is itself an extended
real (the box slab distances can be `±∞` when a bounding-box coordinate is
infinite). -/
def inRangeE (r : Ray) (d : EReal) : Prop :=
  r.min_distance < d ∧ d < r.max_distance

end Ray

/-! ## AxisAlignedBox (`primitive.AxisAlignedBox`)

Box bounds are extended reals: `AxisAlignedBox.infinite()` constructs a box
with all bounds `±INFINITY`, and such boxes are the bounding boxes of planes
and infinite cylinders. -/

structure Box where
  xmin : EReal
  xmax : EReal
  ymin : EReal
  ymax : EReal
  zmin : EReal
  zmax : EReal

namespace Box

/-- `self.min[index]` for `index = 0, 1, 2`. -/
def minv (b : Box) : Fin 3 → EReal
  | 0 => b.xmin
  | 1 => b.ymin
  | 2 => b.zmin

/-- `self.max[index]` for `index = 0, 1, 2`. -/
def maxv (b : Box) : Fin 3 → EReal
  | 0 => b.xmax
  | 1 => b.ymax
  | 2 => b.zmax

/-- `AxisAlignedBox.combine`: the componentwise bounding union. -/
def combine (a b : Box) : Box :=
  ⟨min a.xmin b.xmin, max a.xmax b.xmax,
   min a.ymin b.ymin, max a.ymax b.ymax,
   min a.zmin b.zmin, max a.zmax b.zmax⟩

/-- `AxisAlignedBox.overlap`: the componentwise intersection, `none` when
empty on some axis. -/
def overlap (a b : Box) : Option Box :=
  let xmin := max a.xmin b.xmin
  let xmax := min a.xmax b.xmax
  if xmax < xmin then none else
  let ymin := max a.ymin b.ymin
  let ymax := min a.ymax b.ymax
  if ymax < ymin then none else
  let zmin := max a.zmin b.zmin
  let zmax := min a.zmax b.zmax
  if zmax < zmin then none else
  some ⟨xmin, xmax, ymin, ymax, zmin, zmax⟩

/-- `AxisAlignedBox.infinite`. -/
def infinite : Box := ⟨⊥, ⊤, ⊥, ⊤, ⊥, ⊤⟩

/-- A finite box from six real bounds. -/
def ofReal (xmin xmax ymin ymax zmin zmax : ℝ) : Box :=
  ⟨(xmin : EReal), (xmax : EReal), (ymin : EReal),
   (ymax : EReal), (zmin : EReal), (zmax : EReal)⟩

end Box

/-- The slab distance `(plane_distance - ray.source[index]) / ray.direction[index]`.
When the plane coordinate is `±∞` (an infinite bounding box) the Python
float quotient is `±inf` with the sign fixed by the direction component;
for a finite coordinate it is the real quotient.  Callers only divide after
checking `ray.direction[index] != 0`. -/
def slabDist (plane : EReal) (s d : ℝ) : EReal :=
  if plane = ⊤ then (if 0 < d then ⊤ else ⊥)
  else if plane = ⊥ then (if 0 < d then ⊥ else ⊤)
  else (((plane.toReal - s) / d : ℝ) : EReal)

/-- One iteration of the inner plane loop of `AxisAlignedBox._intersection`:
test one bounding plane of the current axis pair, updating the accumulated
`(min_intersection_distance, min_normal)`.  The point coordinates along the
other two axes are computed with `EReal.toReal` of the slab distance, which
agrees with the Python float because the in-range check just performed
forces the distance finite. -/
def boxPlaneStep (b : Box) (r : Ray) (index other1 other2 : Fin 3)
    (plane : EReal) (n : Vec3) (acc : EReal × Option Vec3) :
    EReal × Option Vec3 :=
  let t := slabDist plane (r.source.get index) (r.direction.get index)
  if r.inRangeE t then
    let tr := t.toReal
    let i1 := r.source.get other1 + tr * r.direction.get other1
    if b.minv other1 ≤ (i1 : EReal) ∧ (i1 : EReal) ≤ b.maxv other1 then
      let i2 := r.source.get other2 + tr * r.direction.get other2
      if (b.minv other2 ≤ (i2 : EReal) ∧ (i2 : EReal) ≤ b.maxv other2)
          ∧ t < acc.1 then
        (t, some n)
      else acc
    else acc
  else acc

/-- The body of the outer loop of `AxisAlignedBox._intersection` for a single
axis pair: both bounding planes are tried in order `(min, -normal)` then
`(max, normal)`, starting from the accumulator `(INFINITY, None)`. -/
def boxAxisPair (b : Box) (r : Ray) (index other1 other2 : Fin 3)
    (n : Vec3) (acc : EReal × Option Vec3) : EReal × Option Vec3 :=
  boxPlaneStep b r index other1 other2 (b.maxv index) n
    (boxPlaneStep b r index other1 other2 (b.minv index) n.neg acc)

/-- `AxisAlignedBox._intersection`.  The Python `return` statement sits
inside the outer per-axis loop, so the function returns right after the
first axis pair whose direction component is nonzero; axis pairs to which
the ray is parallel are skipped by `continue`.  If all three components are
zero the loop completes and the function falls off the end, returning a bare
`None` that makes the caller's tuple unpacking raise — modelled by the outer
`none`. -/
def boxIntersection (b : Box) (r : Ray) : Option (EReal × Option Vec3) :=
  if r.direction.get 0 ≠ 0 then some (boxAxisPair b r 0 1 2 ⟨1, 0, 0⟩ (INFINITY, none))
  else if r.direction.get 1 ≠ 0 then some (boxAxisPair b r 1 2 0 ⟨0, 1, 0⟩ (INFINITY, none))
  else if r.direction.get 2 ≠ 0 then some (boxAxisPair b r 2 0 1 ⟨0, 0, 1⟩ (INFINITY, none))
  else none

/-! ## Sphere (`primitive.Sphere`) -/

structure Sphere where
  centre : Vec3
  radius : ℝ

namespace Sphere

/-- `Sphere._radius2`, precomputed in `__init__` as `radius * radius`. -/
def radius2 (s : Sphere) : ℝ := s.radius * s.radius

/-- `Sphere._intersection`: quadratic test, choosing the smaller in-range
root, falling back to the other when only one is in range. -/
def intersection (s : Sphere) (r : Ray) (compute_normal : Bool) :
    Option ℝ × Option Vec3 :=
  let diff := s.centre.sub r.source
  let diff2 := diff.norm2
  let projection := r.direction.dot diff
  let discriminant := projection * projection - diff2 + s.radius2
  let dist : Option ℝ :=
    if discriminant < 0 then none
    else
      let sq := Real.sqrt discriminant
      let distance1 := projection + sq
      let distance2 := projection - sq
      if r.inRange distance1 then
        if r.inRange distance2 then some (min distance1 distance2)
        else some distance1
      else if r.inRange distance2 then some distance2
      else none
  let normal : Option Vec3 :=
    if compute_normal then
      match dist with
      | none => none
      | some d => some ((r.point d).sub s.centre).normalized
    else none
  (dist, normal)

/-- `Sphere._bounding_box`. -/
def boundingBox (s : Sphere) : Box :=
  Box.ofReal (s.centre.x - s.radius) (s.centre.x + s.radius)
    (s.centre.y - s.radius) (s.centre.y + s.radius)
    (s.centre.z - s.radius) (s.centre.z + s.radius)

end Sphere

/-! ## Plane (`primitive.Plane`) -/

/-- A plane; `pnormal` is the normal as stored by `Plane.__init__`, which
normalizes its argument (use `Plane.make` for the constructor). -/
structure Plane where
  point : Vec3
  pnormal : Vec3

namespace Plane

/-- `Plane.__init__`. -/
def make (point normal : Vec3) : Plane := ⟨point, normal.normalized⟩

/-- `Plane._signed_distance`, precomputed in `__init__`. -/
def signedDistance (p : Plane) : ℝ := p.point.dot p.pnormal

/-- `Plane._intersection`: near-grazing rays (`|direction·normal|` below the
tolerance) give no intersection; the plane's own normal is returned even
when the distance is `None`, and regardless of `compute_normal`. -/
def intersection (p : Plane) (r : Ray) : Option ℝ × Option Vec3 :=
  let proj := r.direction.dot p.pnormal
  let dist : Option ℝ :=
    if |proj| < INTERSECTION_TOLERANCE then none
    else
      let d := (p.signedDistance - r.source.dot p.pnormal) / proj
      if r.inRange d then some d else none
  (dist, some p.pnormal)

end Plane

/-! ## InfiniteCylinder and Cylinder (`primitive.InfiniteCylinder`,
`primitive.Cylinder`) -/

/-- An infinite cylinder; `axis_direction` is stored normalized by
`__init__` (use `InfiniteCylinder.make`). -/
structure InfiniteCylinder where
  axis_point : Vec3
  axis_direction : Vec3
  radius : ℝ

namespace InfiniteCylinder

def make (axis_point axis_direction : Vec3) (radius : ℝ) : InfiniteCylinder :=
  ⟨axis_point, axis_direction.normalized, radius⟩

def radius2 (c : InfiniteCylinder) : ℝ := c.radius * c.radius

/-- `InfiniteCylinder._intersection`.  Note the first branch compares
`lambda1 < lambda2` where `lambda1` is built from `+sqrt` and `lambda2`
from `-sqrt`. -/
def intersection (c : InfiniteCylinder) (r : Ray) (compute_normal : Bool) :
    Option ℝ × Option Vec3 :=
  let d := r.direction.project_out c.axis_direction
  let a := d.norm2
  if a = 0 then (none, none)
  else
    let diff := (r.source.sub c.axis_point).project_out c.axis_direction
    let b_2 := d.dot diff
    let cc := diff.norm2 - c.radius2
    let discriminant := b_2 * b_2 - a * cc
    if discriminant < 0 then (none, none)
    else
      let lambda1 := (Real.sqrt discriminant - b_2) / a
      let lambda2 := (-Real.sqrt discriminant - b_2) / a
      let dist : Option ℝ :=
        if lambda1 < lambda2 ∧ r.inRange lambda1 then some lambda1
        else if r.inRange lambda2 then some lambda2
        else none
      match dist with
      | none => (none, none)
      | some distance =>
          (some distance,
           if compute_normal then some (diff.add (Vec3.smul distance d)).normalized
           else none)

end InfiniteCylinder

/-- A finite cylinder; `axis_direction` and `length` are derived in
`__init__` (use `Cylinder.make`). -/
structure Cylinder where
  axis_start : Vec3
  axis_end : Vec3

  radius : ℝ

namespace Cylinder

def axisDirection (c : Cylinder) : Vec3 := (c.axis_end.sub c.axis_start).normalized

def length (c : Cylinder) : ℝ := (c.axis_end.sub c.axis_start).norm

def radius2 (c : Cylinder) : ℝ := c.radius * c.radius

/-- The finite-extent check `0.0 <= along_axis <= self.length` applied to a
candidate root. -/
def alongAxisOk (c : Cylinder) (r : Ray) (distance : ℝ) : Prop :=
  let along := ((r.point distance).sub c.axis_start).dot c.axisDirection
  0 ≤ along ∧ along ≤ c.length

/-- `Cylinder._intersection`: the infinite-cylinder quadratic, but each
in-range root is additionally constrained to the finite axis segment; the
nearer root is tried first, then the farther. -/
def intersection (c : Cylinder) (r : Ray) (compute_normal : Bool) :
    Option ℝ × Option Vec3 :=
  let d := r.direction.project_out c.axisDirection
  let a := d.norm2
  if a = 0 then (none, none)
  else
    let diff := (r.source.sub c.axis_start).project_out c.axisDirection
    let b_2 := d.dot diff
    let cc := diff.norm2 - c.radius2
    let discriminant := b_2 * b_2 - a * cc
    if discriminant < 0 then (none, none)
    else
      let lambda1 := (Real.sqrt discriminant - b_2) / a
      let lambda2 := (-Real.sqrt discriminant - b_2) / a
      let lambda_min := if lambda1 < lambda2 then lambda1 else lambda2
      let lambda_max := if lambda1 < lambda2 then lambda2 else lambda1
      let dist1 : Option ℝ :=
        if r.inRange lambda_min ∧ c.alongAxisOk r lambda_min then some lambda_min
        else none
      let dist : Option ℝ :=
        match dist1 with
        | some d0 => some d0
        | none =>
            if r.inRange lambda_max ∧ c.alongAxisOk r lambda_max then
              some lambda_max
            else none
      match dist with
      | none => (none, none)
      | some distance =>
          (some distance,
           if compute_normal then some (diff.add (Vec3.smul distance d)).normalized
           else none)

/-- `Cylinder._bounding_box`: the union of the two end-cap boxes. -/
def boundingBox (c : Cylinder) : Box :=
  (Box.ofReal (c.axis_start.x - c.radius) (c.axis_start.x + c.radius)
    (c.axis_start.y - c.radius) (c.axis_start.y + c.radius)
    (c.axis_start.z - c.radius) (c.axis_start.z + c.radius)).combine
  (Box.ofReal (c.axis_end.x - c.radius) (c.axis_end.x + c.radius)
    (c.axis_end.y - c.radius) (c.axis_end.y + c.radius)
    (c.axis_end.z - c.radius) (c.axis_end.z + c.radius))

end Cylinder

/-! ## The closed set of plain primitives -/

/-- The closed variant set of concrete primitives defined in
`primitive.py` (`FuzzySphere` adds an unseeded random perturbation and is
outside every claim). -/
inductive Solid
  | sphere (s : Sphere)
  | box (b : Box)
  | plane (p : Plane)
  | icyl (c : InfiniteCylinder)
  | cyl (c : Cylinder)

namespace Solid

/-- `Primitive.intersection` dispatched over the concrete primitive.
The distances of the different shapes (Python `None`, a float, or the
`INFINITY` constant that `AxisAlignedBox` leaves in its accumulator) are
unified as `Option EReal`; the outer `Option` marks a raised exception,
which only the box variant can produce (direction with all three
components zero). -/
def intersection (o : Solid) (r : Ray) (compute_normal : Bool) :
    Option (Option EReal × Option Vec3) :=
  match o with
  | sphere s =>
      let h := s.intersection r compute_normal
      some (h.1.map (fun d => (d : EReal)), h.2)
  | box b =>
      (boxIntersection b r).map (fun h => (some h.1, h.2))
  | plane p =>
      let h := p.intersection r
      some (h.1.map (fun d => (d : EReal)), h.2)
  | icyl c =>
      let h := c.intersection r compute_normal
      some (h.1.map (fun d => (d : EReal)), h.2)
  | cyl c =>
      let h := c.intersection r compute_normal
      some (h.1.map (fun d => (d : EReal)), h.2)

/-- `Primitive.bounding_box` dispatched over the concrete primitive
(planes and infinite cylinders return the infinite box). -/
def boundingBox : Solid → Box
  | sphere s => s.boundingBox
  | box b => b
  | plane _ => Box.infinite
  | icyl _ => Box.infinite
  | cyl c => c.boundingBox

end Solid

/-! ## CSG combinators (`raytrace/csg.py`)

A renderable object is a plain primitive, a CSG `Intersection` of two
objects, or an `Inverse` of an object.  `Difference(a, b)` is literally
`Intersection(a, Inverse(b))`.  `Primitive.__init__` stores a `material`
and a `shader` on every primitive and CSG `Intersection`; they are opaque
handles here. -/

inductive CObj
  | prim (s : Solid) (material shader : Option ℕ)
  | inter (a b : CObj) (material shader : Option ℕ)
  | inv (a : CObj)

namespace CObj

/-- The Python truthiness idiom `d or INFINITY` applied to a forward-hit
distance: `None` is falsy, but so is the float `0.0`, so a legitimate hit at
distance exactly `0.0` is also replaced by `INFINITY`. -/
def pyOr (d : Option EReal) : EReal :=
  match d with
  | none => INFINITY
  | some v => if v = 0 then INFINITY else v

/-- The inside-classification used by `Intersection._intersection` for one
child: the forward cast reports an in-range hit whose normal points along
the ray (the ray is exiting), or the backward cast reports an in-range hit
whose normal points against the original ray direction.  A hit that passes
the in-range guard always carries a normal (Python would raise otherwise),
so a missing normal contributes the junk dot product `0`. -/
def insideTest (fwd bck : Option EReal × Option Vec3) (r rb : Ray) : Prop :=
  (∃ d, fwd.1 = some d ∧ r.inRangeE d ∧
    0 < (fwd.2.elim 0 (fun n => n.dot r.direction))) ∨
  (∃ d, bck.1 = some d ∧ rb.inRangeE d ∧
    (bck.2.elim 0 (fun n => n.dot r.direction)) < 0)

/-- `Intersection._intersection` and `Inverse._intersection`, mutually
recursive with the primitive dispatch.  `Intersection` casts the ray and
its negation at both children (always requesting normals), classifies the
source as inside/outside each child, orders the two forward hits by
`(d or INFINITY)`, and applies the decision table.  `Inverse` forwards the
query and flips the sign of any returned normal.  The outer `Option`
propagates a raised exception from a child cast. -/
def intersection (o : CObj) (r : Ray) (compute_normal : Bool) :
    Option (Option EReal × Option Vec3) :=
  match o with
  | prim s _ _ => s.intersection r compute_normal
  | inv a =>
      (a.intersection r compute_normal).map
        (fun h => (h.1, h.2.map Vec3.neg))
  | inter a b _ _ =>
      let back_ray := r.negate
      match a.intersection r true with
      | none => none
      | some f1 =>
        match a.intersection back_ray true with
        | none => none
        | some b1 =>
          let inside1 := insideTest f1 b1 r back_ray
          match b.intersection r true with
          | none => none
          | some f2 =>
            match b.intersection back_ray true with
            | none => none
            | some b2 =>
              let inside2 := insideTest f2 b2 r back_ray
              let firstSecond :=
                if pyOr f1.1 < pyOr f2.1 then (f1, f2) else (f2, f1)
              some
                (if inside1 then
                  (if inside2 then firstSecond.1 else f2)
                else if inside2 then f1
                else if f1.1 = none ∨ f2.1 = none then (none, none)
                else firstSecond.2)

/-- `Difference(object1, object2)`. -/
def difference (a b : CObj) (material shader : Option ℕ) : CObj :=
  inter a (inv b) material shader

/-- The `material` attribute: a plain attribute on primitives and CSG
`Intersection`s, a property proxying to the wrapped object on `Inverse`. -/
def material : CObj → Option ℕ
  | prim _ m _ => m
  | inter _ _ m _ => m
  | inv a => a.material

/-- The `shader` attribute, proxied the same way. -/
def shader : CObj → Option ℕ
  | prim _ _ sh => sh
  | inter _ _ _ sh => sh
  | inv a => a.shader

/-- The public `Primitive.bounding_box`, which begins with
`if not self._cached_bounding_box`.  That attribute is created only by
`Primitive.__init__`; `Inverse.__init__` does not call it, so on any
`Inverse` the public method raises `AttributeError` before ever reaching the
proxying `_bounding_box` (`.error ()` below).  `Intersection._bounding_box`
is the `overlap` of the children's public boxes, which is legitimately
`None` when they are disjoint; calling `overlap` on/with such a `None`
would itself raise, hence the `.error` in those cases. -/
def boundingBox : CObj → Except Unit (Option Box)
  | prim s _ _ => .ok (some s.boundingBox)
  | inv _ => .error ()
  | inter a b _ _ => do
      let ba ← a.boundingBox
      let bb ← b.boundingBox
      match ba, bb with
      | some x, some y => .ok (x.overlap y)
      | _, _ => .error ()

end CObj

/-! ## Scene and spatial tree (`scene.py`)

Scene objects live in Python sets, whose iteration order is unspecified;
they are embedded as lists tagged with a numeric identity (`Python object
identity`), and the spatial tree is quantified over all binary trees whose
leaves enumerate the scene's objects. -/

/-- An object of the scene together with its Python object identity. -/
abbrev SceneObj := ℕ × CObj

/-- The running `(min_distance, min_obj, min_normal)` accumulator of the
linear scans in `Scene.intersection` and `ObjectGroup.intersection`. -/

structure HitAcc where
  dist : EReal
  obj : Option SceneObj
  normal : Option Vec3

/-- One candidate `(distance, obj, normal)` as produced by a child
intersection query (`distance` is `None` or a float, the latter possibly
the box's `INFINITY`). -/
structure HitCand where
  dist : Option EReal
  obj : Option SceneObj
  normal : Option Vec3

/-- The shared loop body
`if distance is not None and distance < min_distance: record it`. -/
def stepMin (acc : HitAcc) (c : HitCand) : HitAcc :=
  match c.dist with
  | none => acc
  | some d => if d < acc.dist then ⟨d, c.obj, c.normal⟩ else acc

/-- The shared epilogue `if min_distance == INFINITY: min_distance = None`. -/
def finalize (acc : HitAcc) : HitCand :=
  ⟨if acc.dist = INFINITY then none else some acc.dist, acc.obj, acc.normal⟩

/-- The starting accumulator `(INFINITY, None, None)`. -/
def accInit : HitAcc := ⟨INFINITY, none, none⟩

/-- `Scene.intersection` (the two-argument linear scan): fold `stepMin`
over all top-level objects; a raised exception in any child propagates. -/
def sceneIntersection (objs : List SceneObj) (r : Ray) (compute_normal : Bool) :
    Option HitCand := do
  let acc ← objs.foldlM
    (fun acc io => do
      let h ← io.2.intersection r compute_normal
      pure (stepMin acc ⟨h.1, some io, h.2⟩))
    accInit
  pure (finalize acc)

/-- An `ObjectGroup` tree: a leaf solid, or an internal group of two
children together with the bounding box cached by `add_object` when the
group was built. -/
inductive OTree
  | leaf (io : SceneObj)
  | node (box : Box) (l r : OTree)

namespace OTree

/-- The leaves of a tree, left to right. -/
def leaves : OTree → List SceneObj
  | leaf io => [io]
  | node _ l r => l.leaves ++ r.leaves

/-- `ObjectGroup.intersection`.  The group first intersects the ray with
its cached bounding box (normals off).  `AxisAlignedBox._intersection`
hands back a float distance (`INFINITY` on a miss), never `None`, so the
prune branch `if distance is None: return None, None, None` never fires;
the only effect of the pre-test is to raise when the tuple unpacking fails
(direction with all components zero).  Then both children are queried in
order and folded through `stepMin`; a leaf child contributes its own
`(distance, normal)` with itself as the object. -/
def run : OTree → Ray → Bool → Option HitCand
  | leaf io, r, compute_normal =>
      (io.2.intersection r compute_normal).map
        (fun h => ⟨h.1, some io, h.2⟩)
  | node bx l r', r, compute_normal => do
      let _ ← boxIntersection bx r
      let cl ← l.run r compute_normal
      let cr ← r'.run r compute_normal
      pure (finalize (stepMin (stepMin accInit cl) cr))

end OTree

/-- The greedy selection `min(objects, key=...)` over a working list of
trees: returns the first tree minimizing the key together with the
remaining trees. -/
def pickMin (key : OTree → EReal) : OTree → List OTree → OTree × List OTree
  | t, [] => (t, [])
  | t, u :: us =>
      if key u < key t then
        let p := pickMin key u us
        (p.1, t :: p.2)
      else
        let p := pickMin key t us
        (p.1, u :: p.2)

/-- `AxisAlignedBox.volume` (Python's left-associated product). -/
def Box.volume (b : Box) : EReal :=
  (b.xmax - b.xmin) * (b.ymax - b.ymin) * (b.zmax - b.zmin)

/-- The bounding box of a working tree during the build: an internal group
returns its cached box; a leaf asks the object, raising (`.error`) when the
object's public `bounding_box` raises or returns `None` (a later `combine`
on `None` would raise). -/
def otreeBox : OTree → Except Unit Box
  | .leaf io =>
      match io.2.boundingBox with
      | .ok (some bx) => .ok bx
      | _ => .error ()
  | .node bx _ _ => .ok bx

/-- The bounding box of a working tree, with the error case collapsed to a
junk value; `computeTreeLoop` checks `otreeBox` success separately before
using it. -/
def otreeBoxD (t : OTree) : Box :=
  match otreeBox t with
  | .ok bx => bx
  | .error _ => Box.infinite

/-- Whether `otreeBox` succeeds. -/
def otreeBoxOk (t : OTree) : Prop :=
  ∃ bx, otreeBox t = .ok bx

/-- The agglomeration loop of `Scene._compute_tree`: repeatedly pop an
object, find the partner whose combined bounding box has minimal volume,
and replace the pair by a two-child group.  Python draws from a set in
unspecified order; this embedding resolves it to list order (the
equivalence theorem below quantifies over every tree shape, so nothing
depends on this resolution).  Each round shortens the working list by one,
so a fuel equal to the initial length always suffices; a bounding-box
failure (which Python raises) is `.error`.  The loop recurses on the fuel. -/
def computeTreeLoop : ℕ → List OTree → Except Unit OTree
  | _, [] => .error ()
  | _, [t] => .ok t
  | 0, _ :: _ :: _ => .error ()
  | fuel + 1, t :: u :: us =>
      if (t :: u :: us).Forall otreeBoxOk then
        let bt := otreeBoxD t
        let key := fun v => (bt.combine (otreeBoxD v)).volume
        let picked := pickMin key u us
        computeTreeLoop fuel
          (picked.2 ++ [OTree.node (bt.combine (otreeBoxD picked.1)) t picked.1])
      else .error ()

/-- `Scene._compute_tree` starting from the scene's objects. -/
def computeTree (objs : List SceneObj) : Except Unit OTree :=
  computeTreeLoop objs.length (objs.map OTree.leaf)

/-- `Scene.intersection_old` on its first call: `_compute_tree` declines to
build a tree for fewer than two objects and leaves `self.tree = None`, so
the following `self.tree.print()` raises `AttributeError` (`none` below);
otherwise the query runs on the built tree. -/
def sceneIntersectionOld (objs : List SceneObj) (r : Ray)
    (compute_normal : Bool) : Option HitCand :=
  if objs.length < 2 then none
  else
    match computeTree objs with
    | .error _ => none
    | .ok t => t.run r compute_normal

/-- `Scene.is_obscured`: cast a ray from `source` toward `destination` and
compare the nearest intersection distance with the expected distance.  When
the scene reports no intersection the distance is `None` and the subtraction
`distance - diff.norm()` raises `TypeError` (`none` below). -/
def isObscured (objs : List SceneObj) (source destination : Vec3) :
    Option Bool := do
  let diff := destination.sub source
  let ray := Ray.make source diff
  let h ← sceneIntersection objs ray false
  match h.dist with
  | none => none
  | some d =>
      pure (decide (d - ((diff.norm : ℝ) : EReal) <
        ((INTERSECTION_TOLERANCE : ℝ) : EReal)))

/-! ## Colour, material and lights (`colour.py`, `material.py`, `light.py`) -/

/-- `colour.Colour`: RGB channels stored through property setters that
clamp each assigned value below at `0.0`, so construct through
`Colour.make`. -/
structure Colour where
  red : ℝ
  green : ℝ
  blue : ℝ

namespace Colour

/-- `Colour.__init__` (each channel goes through `max(0.0, value)`). -/
def make (r g b : ℝ) : Colour := ⟨max 0 r, max 0 g, max 0 b⟩

/-- `Colour()`: black. -/
def black : Colour := make 0 0 0

/-- `Colour.__add__` (and the equal-valued `__iadd__`). -/
def add (a b : Colour) : Colour :=
  make (a.red + b.red) (a.green + b.green) (a.blue + b.blue)

/-- `Colour.__mul__` with another colour. -/
def mulC (a b : Colour) : Colour :=
  make (a.red * b.red) (a.green * b.green) (a.blue * b.blue)

/-- `Colour.__mul__` with a scalar (and `__rmul__`). -/
def mulS (a : Colour) (t : ℝ) : Colour :=
  make (a.red * t) (a.green * t) (a.blue * t)

/-- `Colour.clamped()` with the default bounds `[0, 1]`: clone, then clamp
each channel (through the setters, which re-apply the lower bound 0). -/
def clamped (a : Colour) : Colour :=
  make (max (min a.red 1) 0) (max (min a.green 1) 0) (max (min a.blue 1) 0)

end Colour

/-- `material.Material` (`diffuse` and `specular` defaults are applied by
the constructor; `shinyness` is the integer Phong exponent). -/
structure Material where
  ambient : Colour
  diffuse : Colour
  reflectivity : ℝ
  specular : Colour
  shinyness : ℕ

/-- A scene object as seen by the renderer: a Python object identity plus
its material (`Obj.id` models `is` comparisons; identities are assumed
unique). -/
structure Obj where
  id : ℕ
  material : Material

/-- `light.Point`. -/
structure PointLight where
  position : Vec3
  colour : Colour
  intensity : ℝ

/-- The closed light variant set: `Ambient` or `Point`. -/
inductive Light
  | ambient (colour : Colour)
  | point (l : PointLight)

/-! ## Renderer (`renderer.py`)

`Renderer._compute_colour(ray, scene, depth, source_object)` is generic in
its `scene` argument: it only requires a three-positional-argument
`intersection(ray, compute_normal, source_object)` query (the interface of
`Scene.intersection_old`/`ObjectGroup.intersection`) plus a `lights`
collection, so the scene is embedded as that interface.  (The separate
question of what happens when an actual `Scene` — whose `intersection`
accepts only two positional arguments — is passed is modelled further
below.) -/

structure SceneR where
  intersect : Ray → Bool → Option Obj → Option (Obj × ℝ × Vec3)
  lights : List Light

namespace Renderer

/-- `Renderer._compute_ambient`. -/
def computeAmbient (obj : Obj) (lightColour : Colour) : Colour :=
  (obj.material.ambient.mulC lightColour).clamped

/-- `Renderer._compute_diffuse`: shadow-test from the light toward the hit
point (a two-argument `intersection` call, normals off); obscured when the
nearest hit is a different object or falls short of the expected distance
by more than the tolerance; otherwise the Lambertian term. -/
def computeDiffuse (sc : SceneR) (obj : Obj) (ipoint normal : Vec3)
    (l : PointLight) : Colour :=
  let ray := Ray.make l.position (ipoint.sub l.position)
  match sc.intersect ray false none with
  | none => Colour.black
  | some (closest, dist, _) =>
      if closest.id ≠ obj.id ∨
          INTERSECTION_TOLERANCE < (ipoint.sub l.position).norm - dist then
        Colour.black
      else
        let intensity := l.intensity / (dist * dist)
        let cos_angle := -(ray.direction.dot normal)
        (((obj.material.diffuse.mulC l.colour).mulS cos_angle).mulS
          intensity).clamped

/-- `Renderer._compute_specular`: the same shadow test, then the Phong
term. -/
def computeSpecular (sc : SceneR) (obj : Obj) (ipoint normal : Vec3)
    (l : PointLight) : Colour :=
  let ray := Ray.make l.position (ipoint.sub l.position)
  match sc.intersect ray false none with
  | none => Colour.black
  | some (closest, dist, _) =>
      if closest.id ≠ obj.id ∨
          INTERSECTION_TOLERANCE < (ipoint.sub l.position).norm - dist then
        Colour.black
      else
        let attenuation := l.intensity / (dist * dist)
        let cos_angle := -(ray.direction.dot normal)
        (((obj.material.specular.mulS
            (cos_angle ^ obj.material.shinyness)).mulC l.colour).mulS
          attenuation).clamped

/-- The per-light accumulation loop of `Renderer._compute_colour`:
ambient lights contribute unconditionally, point lights a diffuse and a
specular term. -/
def shadePoint (sc : SceneR) (obj : Obj) (ipoint normal : Vec3) : Colour :=
  sc.lights.foldl
    (fun c li =>
      match li with
      | .ambient lc => c.add (computeAmbient obj lc)
      | .point pl =>
          (c.add (computeDiffuse sc obj ipoint normal pl)).add
            (computeSpecular sc obj ipoint normal pl))
    Colour.black

/-- `Renderer._compute_colour`: nearest hit, light accumulation, then — only
when the material reflects and `depth` is still below the configured
`recursion_depth` — one recursive call at `depth + 1` for the reflected
ray, scaled by the reflectivity.  The recursion is well-founded because
`recursion_depth - depth` strictly decreases. -/
def computeColour (recursion_depth : ℕ) (sc : SceneR) (r : Ray) (depth : ℕ)
    (_source_object : Option Obj) : Colour :=
  match sc.intersect r true _source_object with
  | none => Colour.black
  | some (obj, dist, normal) =>
      let ipoint := r.point dist
      let colour := shadePoint sc obj ipoint normal
      if obj.material.reflectivity = 0 ∨ recursion_depth ≤ depth then
        colour.clamped
      else
        let reflected_ray := Ray.make ipoint (r.direction.reflected normal)
        let reflected :=
          computeColour recursion_depth sc reflected_ray (depth + 1) (some obj)
        (colour.add (reflected.mulS obj.material.reflectivity)).clamped
  termination_by recursion_depth - depth
  decreasing_by
    rename_i h
    rw [not_or] at h
    omega

end Renderer

/-! ## Rendering over an actual `Scene` (`renderer.py` + `scene.py`)

`Renderer._compute_colour` opens with
`scene.intersection(ray, True, source_object)` — three positional
arguments — while `Scene.intersection` is declared
`def intersection(self, ray, compute_normal=True)` and binds at most two.
Python raises `TypeError` at the call site, before the method body runs. -/

inductive PyError
  | typeError
  | valueError (x y : ℕ)

/-- The maximal number of positional arguments (beyond `self`) accepted by
`Scene.intersection`: `ray` and `compute_normal`. -/
def sceneIntersectionMaxArgs : ℕ := 2

/-- The number of positional arguments passed by `Renderer._compute_colour`:
`ray`, `True` and `source_object`. -/
def computeColourCallArgs : ℕ := 3

/-- Python positional-argument binding: a call with more positional
arguments than the callee accepts raises `TypeError`; otherwise the body
runs. -/
def pyCall (maxPositional given : ℕ) (body : α) : Except PyError α :=
  if maxPositional < given then .error .typeError else .ok body

/-- `Renderer._compute_colour` executed with an actual `Scene`: the opening
three-argument `scene.intersection` call goes through `pyCall`, and `rest`
stands for the remainder of the shading body, which is never reached. -/
def computeColourOnScene (objs : List SceneObj) (r : Ray)
    (rest : Option HitCand → Except PyError Colour) : Except PyError Colour := do
  let h ← pyCall sceneIntersectionMaxArgs computeColourCallArgs
    (sceneIntersection objs r true)
  rest h

/-- The pixel loop of `Renderer.render`: each pixel's shading runs inside a
`try`; any exception is re-raised as `ValueError` tagged with that pixel's
coordinates, aborting the render (the accumulated stores are lost with the
raise). -/
def renderLoop (shade : (ℕ × ℕ) × Ray → Except PyError Colour) :
    List ((ℕ × ℕ) × Ray) → List ((ℕ × ℕ) × Colour) →
    Except PyError (List ((ℕ × ℕ) × Colour))
  | [], acc => .ok acc
  | p :: ps, acc =>
      match shade p with
      | .error _ => .error (.valueError p.1.1 p.1.2)
      | .ok c => renderLoop shade ps (acc ++ [(p.1, c)])

/-- `Renderer.render` over an actual `Scene`: every pixel the camera yields
is shaded with `computeColourOnScene`. -/
def renderOnScene (objs : List SceneObj)
    (rest : Option HitCand → Except PyError Colour)
    (pixels : List ((ℕ × ℕ) × Ray)) :
    Except PyError (List ((ℕ × ℕ) × Colour)) :=
  renderLoop (fun p => computeColourOnScene objs p.2 rest) pixels []

/-! ## RenderResult persistence (`result.py`, `raytrace/result.py`)

The persisted layout is the magic bytes `"SAW\0"`, a `struct` header
`"<3i"` of `(width, height, component_count)`, one byte per stored
component, then `width * height * component_count` machine doubles written
by `array.tofile`.  The byte stream is modelled as a token list in which a
machine double is kept abstract as its real value (`array.tofile`/
`array.fromfile` reproduce the 8 bytes of a double exactly, so the value
round-trips bit-for-bit).  `raytrace/result.py` additionally pipes
everything after the magic through an LZMA stream; a lossless compressor
returns exactly the bytes written, so both versions reduce to the same
token stream. -/

inductive Tok
  | byte (b : ℕ)
  | dbl (v : ℝ)

/-- `ResultComponent`. -/
inductive Component
  | red
  | green
  | blue
  | alpha
  | distance
deriving DecidableEq

namespace Component

/-- `ResultComponent.value`. -/
def value : Component → ℕ
  | red => 1
  | green => 2
  | blue => 3
  | alpha => 4
  | distance => 5

/-- `ResultComponent(n)`: `ValueError` (`none`) for an unknown value. -/
def ofValue : ℕ → Option Component
  | 1 => some red
  | 2 => some green
  | 3 => some blue
  | 4 => some alpha
  | 5 => some distance
  | _ => none

end Component

/-- `result.RenderResult`: a dense buffer indexed by `(x, y, component)`.
The backing `array("d")` is modelled as a function from flat index to
value (of length `width * height * len(components)`). -/
structure RenderResult where
  width : ℕ
  height : ℕ
  components : List Component
  data : ℕ → ℝ

namespace RenderResult

/-- `RenderResult.__init__`: a zero-filled buffer. -/
def make (width height : ℕ) (components : List Component) : RenderResult :=
  ⟨width, height, components, fun _ => 0⟩

/-- `len(self.component_index)`: the dictionary built from
`enumerate(components)` keeps one entry per distinct component. -/
def numComponents (res : RenderResult) : ℕ := res.components.dedup.length

/-- `self.component_index[component]` (for duplicate-free component lists
the dictionary maps each component to its list position). -/
def componentIndex (res : RenderResult) (c : Component) : ℕ :=
  res.components.indexOf c

/-- `self._row_stride = width * len(components)`. -/
def rowStride (res : RenderResult) : ℕ := res.width * res.components.length

/-- `RenderResult._index`. -/
def index (res : RenderResult) (x y : ℕ) (c : Component) : ℕ :=
  res.rowStride * y + res.numComponents * x + res.componentIndex c

/-- `RenderResult.__getitem__`. -/
def get (res : RenderResult) (x y : ℕ) (c : Component) : ℝ :=
  res.data (res.index x y c)

/-- The number of stored doubles,
`width * height * len(components)`. -/
def size (res : RenderResult) : ℕ :=
  res.width * res.height * res.components.length

end RenderResult

/-- `struct.Struct("<3i")` packs signed 32-bit integers: packing raises
`struct.error` for a value outside the representable range (for the
nonnegative sizes here: `2^31` and above). -/
def fitsInt32 (n : ℕ) : Prop := n < 2 ^ 31

/-- One little-endian 32-bit integer as four bytes (nonnegative case). -/
def int32le (n : ℕ) : List Tok :=
  [.byte (n % 256), .byte (n / 256 % 256), .byte (n / 65536 % 256),
   .byte (n / 16777216 % 256)]

/-- The magic bytes `b"SAW\x00"`. -/
def magicToks : List Tok := [.byte 83, .byte 65, .byte 87, .byte 0]

/-- `RenderResult.tofile`.  The header is packed first; `struct.error`
(`none`) aborts before anything is written.  The component bytes are the
dictionary items sorted by stored index, which for a duplicate-free
component list is the original component order (theorems below restrict to
component *sets*, matching the claim).  The payload is the backing array. -/
def RenderResult.tofile (res : RenderResult) : Option (List Tok) :=
  if fitsInt32 res.width ∧ fitsInt32 res.height ∧ fitsInt32 res.numComponents
  then
    some (magicToks ++ int32le res.width ++ int32le res.height ++
      int32le res.numComponents ++
      res.components.map (fun c => .byte c.value) ++
      (List.range res.size).map (fun i => .dbl (res.data i)))
  else none

/-- Read `n` bytes from the token stream. -/
def takeBytes : ℕ → List Tok → Option (List ℕ × List Tok)
  | 0, toks => some ([], toks)
  | n + 1, .byte b :: toks =>
      (takeBytes n toks).map (fun p => (b :: p.1, p.2))
  | _ + 1, _ => none

/-- Read `n` doubles from the token stream (`array.fromfile` raises
`EOFError` when fewer are available). -/
def takeDbls : ℕ → List Tok → Option (List ℝ × List Tok)
  | 0, toks => some ([], toks)
  | n + 1, .dbl v :: toks =>
      (takeDbls n toks).map (fun p => (v :: p.1, p.2))
  | _ + 1, _ => none

/-- Little-endian decoding of four bytes. -/
def dec32le (bs : List ℕ) : ℕ :=
  bs.getD 0 0 + 256 * bs.getD 1 0 + 65536 * bs.getD 2 0 +
    16777216 * bs.getD 3 0

/-- `RenderResult.fromfile`: check the magic (an `assert`, fatal on
mismatch), unpack the header, decode the component bytes (`ValueError` on
an unknown byte), then read `width * height * num_components` doubles into
a fresh buffer. -/
def RenderResult.fromfile (toks : List Tok) : Option RenderResult := do
  let (magic, rest) ← takeBytes 4 toks
  if magic = [83, 65, 87, 0] then
    let (hdr, rest) ← takeBytes 12 rest
    let width := dec32le (hdr.take 4)
    let height := dec32le ((hdr.drop 4).take 4)
    let num_components := dec32le (hdr.drop 8)
    let (cbytes, rest) ← takeBytes num_components rest
    let components ← cbytes.mapM Component.ofValue
    let (vals, _) ← takeDbls (width * height * num_components) rest
    pure ⟨width, height, components, fun i => vals.getD i 0⟩
  else none

/-! ## Concrete objects used by witnesses -/

/-- A material with full mirror reflectivity. -/
def mirrorMaterial : Material :=
  ⟨Colour.black, Colour.black, 1, Colour.black, 10⟩

/-- A renderer-level object with identity `0` and the mirror material. -/
def mirrorObj : Obj := ⟨0, mirrorMaterial⟩

/-- A scene interface whose intersection query always reports `mirrorObj`
at distance `1` with normal `(0, 0, 1)`, and no lights. -/
def mirrorSceneR : SceneR :=
  ⟨fun _ _ _ => some (mirrorObj, 1, ⟨0, 0, 1⟩), []⟩

/-- A ray along `+z` from the origin with the default bounds. -/
def zRay : Ray := ⟨⟨0, 0, 0⟩, ⟨0, 0, 1⟩, ((0 : ℝ) : EReal), ⊤⟩

/-! ## Theorems -/

/-- The unit box `[0,1]^3`. -/
def unitBox : Box := Box.ofReal 0 1 0 1 0 1

/-- A unit-direction ray from `(2, 1/2, 1/2)` along `+x` (pointing away
from `unitBox`), with the default bounds. -/
def missRay : Ray := ⟨⟨2, 1 / 2, 1 / 2⟩, ⟨1, 0, 0⟩, ((0 : ℝ) : EReal), ⊤⟩

/-- A unit-direction ray from `(0, 1/2, -1)` along `(3/5, 0, 4/5)` with the
default bounds: it enters `unitBox` through the `z = 0` face at distance
`5/4` and leaves through the `x = 1` face at distance `5/3`. -/
def slantRay : Ray := ⟨⟨0, 1 / 2, -1⟩, ⟨3 / 5, 0, 4 / 5⟩, ((0 : ℝ) : EReal), ⊤⟩

/-- Modelled from the spec: the standard three-axis slab test (spec sections
4.1 and 9) — for each of the three axis pairs, skip it if the ray is
parallel, otherwise test both bounding planes, and keep the globally minimal
valid distance across all three axis pairs, returning only after the loop.
It reuses the per-plane step of the reference code, threading one
accumulator through every non-degenerate axis pair instead of returning
inside the loop. -/
def boxIntersectionAllAxes (b : Box) (r : Ray) : EReal × Option Vec3 :=
  let a0 : EReal × Option Vec3 := (INFINITY, none)
  let a1 := if r.direction.get 0 = 0 then a0 else boxAxisPair b r 0 1 2 ⟨1, 0, 0⟩ a0
  let a2 := if r.direction.get 1 = 0 then a1 else boxAxisPair b r 1 2 0 ⟨0, 1, 0⟩ a1
  if r.direction.get 2 = 0 then a2 else boxAxisPair b r 2 0 1 ⟨0, 0, 1⟩ a2

/-- The unit sphere at the origin. -/
def unitSphere : Sphere := ⟨⟨0, 0, 0⟩, 1⟩

/-- A second sphere, centred at `(-5, 0, 0)` with radius `1`. -/
def sphereB : Sphere := ⟨⟨-5, 0, 0⟩, 1⟩

/-- The ray used for the CSG counterexample: source `(1, 0, 0)` (on the
unit sphere's surface), direction `(-1, 0, 0)`, `min_distance = -3`,
default `max_distance` — a ray whose forward hit on the unit sphere falls
at distance exactly `0.0`. -/
def csgRay : Ray := ⟨⟨1, 0, 0⟩, ⟨-1, 0, 0⟩, (((-3 : ℝ)) : EReal), ⊤⟩

/-- The CSG `Intersection` of the two spheres. -/
def csgNode : CObj :=
  CObj.inter (CObj.prim (Solid.sphere unitSphere) none none)
    (CObj.prim (Solid.sphere sphereB) none none) none none

/-- The negation of `csgRay` as a literal. -/
def csgBack : Ray := ⟨⟨1, 0, 0⟩, ⟨1, 0, 0⟩, (((-3 : ℝ)) : EReal), ⊤⟩

/-- A sphere centred at `(3, 0, 0)` with radius `1`; the point `(2, 0, 0)`
lies exactly on its surface. -/
def shadowSphere : Sphere := ⟨⟨3, 0, 0⟩, 1⟩

/-- The scene containing only `shadowSphere`. -/
def shadowScene : List SceneObj :=
  [(0, CObj.prim (Solid.sphere shadowSphere) none none)]

/-- The shadow ray from the origin toward `(2, 0, 0)`, as `Scene.is_obscured`
builds it. -/
def shadowRay : Ray := ⟨⟨0, 0, 0⟩, ⟨1, 0, 0⟩, ((0 : ℝ) : EReal), ⊤⟩

/-- The quadratic's linear coefficient `projection = direction · (centre - source)`
from `Sphere._intersection`. -/
def Sphere.proj (s : Sphere) (r : Ray) : ℝ :=
  r.direction.dot (s.centre.sub r.source)

/-- The discriminant of `Sphere._intersection`. -/
def Sphere.disc (s : Sphere) (r : Ray) : ℝ :=
  s.proj r * s.proj r - (s.centre.sub r.source).norm2 + s.radius2

/-- The larger quadratic root `distance1 = projection + sqrt(discriminant)`. -/
def Sphere.root1 (s : Sphere) (r : Ray) : ℝ :=
  s.proj r + Real.sqrt (s.disc r)

/-- The smaller quadratic root `distance2 = projection - sqrt(discriminant)`. -/
def Sphere.root2 (s : Sphere) (r : Ray) : ℝ :=
  s.proj r - Real.sqrt (s.disc r)

/-- A ray from `(3, 0, 0)` aimed at the origin (the centre of
`unitSphere`), with the default bounds. -/
def c7Ray : Ray := ⟨⟨3, 0, 0⟩, ⟨-1, 0, 0⟩, ((0 : ℝ) : EReal), ⊤⟩

/-- The candidate contributed to the minimum fold by one scene object (the
`none` fallback is unreachable whenever the ray direction is nonzero). -/
def candOf (r : Ray) (cn : Bool) (io : SceneObj) : HitCand :=
  match io.2.intersection r cn with
  | some h => ⟨h.1, some io, h.2⟩
  | none => ⟨none, none, none⟩

/-- The value a candidate contributes to the running minimum: a missing
distance acts as `INFINITY` (it can never win the strict comparison). -/
def candVal (r : Ray) (cn : Bool) (io : SceneObj) : EReal :=
  match (candOf r cn io).dist with
  | none => INFINITY
  | some d => min d INFINITY

/-- The result of `ObjectGroup.intersection` as a total function of the
tree (equal to `OTree.run` whenever the ray direction is nonzero). -/
def treeCand (r : Ray) (cn : Bool) : OTree → HitCand
  | .leaf io => candOf r cn io
  | .node _ l r' =>
      finalize (stepMin (stepMin accInit (treeCand r cn l)) (treeCand r cn r'))

/-- The effective minimum-fold value of a result candidate (`none` and
distances of `INFINITY` both act as `INFINITY`). -/
def cval (h : HitCand) : EReal :=
  match h.dist with
  | none => INFINITY
  | some d => min d INFINITY

/-- A two-sphere scene for evaluating the equivalence theorem. -/
def eqScene : List SceneObj :=
  [(0, CObj.prim (Solid.sphere unitSphere) none none),
   (1, CObj.prim (Solid.sphere shadowSphere) none none)]

/-- The box `_compute_tree` caches on the root it builds for `eqScene`. -/
def eqTreeBox : Box :=
  (otreeBoxD (OTree.leaf (0, CObj.prim (Solid.sphere unitSphere)
    none none))).combine
  (otreeBoxD (OTree.leaf (1, CObj.prim (Solid.sphere shadowSphere)
    none none)))

/-- The tree `_compute_tree` builds for `eqScene`. -/
def eqTree : OTree :=
  OTree.node eqTreeBox
    (OTree.leaf (0, CObj.prim (Solid.sphere unitSphere) none none))
    (OTree.leaf (1, CObj.prim (Solid.sphere shadowSphere) none none))

/-- Claim C10: `Renderer._compute_colour` passes three positional arguments
to `Scene.intersection`, which accepts only two, so every per-pixel shading
call over an actual `Scene` raises `TypeError`; `Renderer.render` wraps the
exception in a `ValueError` carrying the first pixel's coordinates and
aborts, so no pixel of the result is ever stored. -/
theorem render_on_scene_raises :
    (∀ (objs : List SceneObj) (r : Ray)
      (rest : Option HitCand → Except PyError Colour),
      computeColourOnScene objs r rest = .error .typeError) ∧
    (∀ (objs : List SceneObj) (rest : Option HitCand → Except PyError Colour)
      (p : (ℕ × ℕ) × Ray) (ps : List ((ℕ × ℕ) × Ray)),
      renderOnScene objs rest (p :: ps) = .error (.valueError p.1.1 p.1.2)) := by
  have hcall : ∀ (objs : List SceneObj) (r : Ray)
      (rest : Option HitCand → Except PyError Colour),
      computeColourOnScene objs r rest = .error .typeError := by
    intro objs r rest
    simp only [computeColourOnScene, pyCall, sceneIntersectionMaxArgs,
      computeColourCallArgs]
    rfl
  refine ⟨hcall, ?_⟩
  intro objs rest p ps
  simp [renderOnScene, renderLoop, hcall]

/-- Claim C8: the recursive colour computation recurses into a reflected
ray exactly when the hit material's reflectivity is nonzero and `depth` is
strictly below `recursion_depth`, and the recursive call uses `depth + 1`;
otherwise it returns the clamped direct-lighting colour, so with
`recursion_depth = 0` even a fully reflective material contributes no
reflected light.  (The definition of `Renderer.computeColour` is
well-founded by the strictly decreasing `recursion_depth - depth`,
formalizing the termination guarantee.) -/
theorem computeColour_recursion_spec :
    (∀ (rd : ℕ) (sc : SceneR) (r : Ray) (depth : ℕ) (src : Option Obj)
      (obj : Obj) (dist : ℝ) (normal : Vec3),
      sc.intersect r true src = some (obj, dist, normal) →
      obj.material.reflectivity ≠ 0 → depth < rd →
      Renderer.computeColour rd sc r depth src =
        ((Renderer.shadePoint sc obj (r.point dist) normal).add
          ((Renderer.computeColour rd sc
              (Ray.make (r.point dist) (r.direction.reflected normal))
              (depth + 1) (some obj)).mulS
            obj.material.reflectivity)).clamped) ∧
    (∀ (rd : ℕ) (sc : SceneR) (r : Ray) (depth : ℕ) (src : Option Obj)
      (obj : Obj) (dist : ℝ) (normal : Vec3),
      sc.intersect r true src = some (obj, dist, normal) →
      (obj.material.reflectivity = 0 ∨ rd ≤ depth) →
      Renderer.computeColour rd sc r depth src =
        (Renderer.shadePoint sc obj (r.point dist) normal).clamped) ∧
    (∀ (sc : SceneR) (r : Ray) (src : Option Obj)
      (obj : Obj) (dist : ℝ) (normal : Vec3),
      sc.intersect r true src = some (obj, dist, normal) →
      obj.material.reflectivity = 1 →
      Renderer.computeColour 0 sc r 0 src =
        (Renderer.shadePoint sc obj (r.point dist) normal).clamped) := by
  have hstop : ∀ (rd : ℕ) (sc : SceneR) (r : Ray) (depth : ℕ)
      (src : Option Obj) (obj : Obj) (dist : ℝ) (normal : Vec3),
      sc.intersect r true src = some (obj, dist, normal) →
      (obj.material.reflectivity = 0 ∨ rd ≤ depth) →
      Renderer.computeColour rd sc r depth src =
        (Renderer.shadePoint sc obj (r.point dist) normal).clamped := by
    intro rd sc r depth src obj dist normal hhit hguard
    rw [Renderer.computeColour, hhit]
    simp [hguard]
  refine ⟨?_, hstop, ?_⟩
  · intro rd sc r depth src obj dist normal hhit hrefl hdepth
    rw [Renderer.computeColour, hhit]
    have hguard : ¬(obj.material.reflectivity = 0 ∨ rd ≤ depth) := by
      push_neg
      exact ⟨hrefl, hdepth⟩
    simp [hguard]
  · intro sc r src obj dist normal hhit _
    exact hstop 0 sc r 0 src obj dist normal hhit (Or.inr le_rfl)

/-- Witness for C8 at a concrete fully reflective scene: with
`recursion_depth = 0` the colour is the clamped direct contribution, with
no reflected term. -/
theorem computeColour_recursion_spec_witness :
    Renderer.computeColour 0 mirrorSceneR zRay 0 none =
      (Renderer.shadePoint mirrorSceneR mirrorObj (zRay.point 1)
        ⟨0, 0, 1⟩).clamped :=
  computeColour_recursion_spec.2.2 mirrorSceneR zRay none mirrorObj 1
    ⟨0, 0, 1⟩ rfl rfl

/-! ## Helper lemmas for evaluating the embedded code on concrete inputs -/

theorem slabDist_coe (p s d : ℝ) :
    slabDist ((p : ℝ) : EReal) s d = (((p - s) / d : ℝ) : EReal) := by
  simp [slabDist, EReal.coe_ne_top, EReal.coe_ne_bot, EReal.toReal_coe]

/-- The in-range test against a coerced real bound and the default
`max_distance = INFINITY`, reduced to a real comparison. -/
theorem inRangeE_coe_top {m t : ℝ} (r : Ray)
    (h1 : r.min_distance = ((m : ℝ) : EReal)) (h2 : r.max_distance = ⊤) :
    r.inRangeE ((t : ℝ) : EReal) ↔ m < t := by
  simp [Ray.inRangeE, h1, h2, EReal.coe_lt_coe_iff, EReal.coe_lt_top]

/-- Same reduction for `Ray.inRange`. -/
theorem inRange_coe_top {m : ℝ} {t : ℝ} (r : Ray)
    (h1 : r.min_distance = ((m : ℝ) : EReal)) (h2 : r.max_distance = ⊤) :
    r.inRange t ↔ m < t := by
  simp [Ray.inRange, h1, h2, EReal.coe_lt_coe_iff, EReal.coe_lt_top]

/-- A plane step whose slab distance fails the in-range test leaves the
accumulator unchanged. -/
theorem boxPlaneStep_miss {b : Box} {r : Ray} {i o1 o2 : Fin 3} {p : EReal}
    {n : Vec3} {acc : EReal × Option Vec3}
    (h1 : ¬ r.inRangeE (slabDist p (r.source.get i) (r.direction.get i))) :
    boxPlaneStep b r i o1 o2 p n acc = acc := by
  unfold boxPlaneStep
  rw [if_neg h1]

/-- A plane step whose intersection point violates the first bound check
leaves the accumulator unchanged. -/
theorem boxPlaneStep_out1 {b : Box} {r : Ray} {i o1 o2 : Fin 3} {p : EReal}
    {n : Vec3} {acc : EReal × Option Vec3}
    (h1 : r.inRangeE (slabDist p (r.source.get i) (r.direction.get i)))
    (h2 : ¬ (b.minv o1 ≤
        ((r.source.get o1 +
          (slabDist p (r.source.get i) (r.direction.get i)).toReal *
            r.direction.get o1 : ℝ) : EReal) ∧
      ((r.source.get o1 +
          (slabDist p (r.source.get i) (r.direction.get i)).toReal *
            r.direction.get o1 : ℝ) : EReal) ≤ b.maxv o1)) :
    boxPlaneStep b r i o1 o2 p n acc = acc := by
  unfold boxPlaneStep
  rw [if_pos h1, if_neg h2]

/-- A plane step that passes every test records the slab distance and the
plane's normal. -/
theorem boxPlaneStep_hit {b : Box} {r : Ray} {i o1 o2 : Fin 3} {p : EReal}
    {n : Vec3} {acc : EReal × Option Vec3}
    (h1 : r.inRangeE (slabDist p (r.source.get i) (r.direction.get i)))
    (h2 : b.minv o1 ≤
        ((r.source.get o1 +
          (slabDist p (r.source.get i) (r.direction.get i)).toReal *
            r.direction.get o1 : ℝ) : EReal) ∧
      ((r.source.get o1 +
          (slabDist p (r.source.get i) (r.direction.get i)).toReal *
            r.direction.get o1 : ℝ) : EReal) ≤ b.maxv o1)
    (h3 : (b.minv o2 ≤
        ((r.source.get o2 +
          (slabDist p (r.source.get i) (r.direction.get i)).toReal *
            r.direction.get o2 : ℝ) : EReal) ∧
      ((r.source.get o2 +
          (slabDist p (r.source.get i) (r.direction.get i)).toReal *
            r.direction.get o2 : ℝ) : EReal) ≤ b.maxv o2)
      ∧ slabDist p (r.source.get i) (r.direction.get i) < acc.1) :
    boxPlaneStep b r i o1 o2 p n acc =
      (slabDist p (r.source.get i) (r.direction.get i), some n) := by
  unfold boxPlaneStep
  rw [if_pos h1, if_pos h2, if_pos h3]

/-- Claim C1: contrary to the interval contract (and to the base class's
own docstring, which promises `None` for "no intersection"),
`AxisAlignedBox._intersection` reports a clean miss as the distance
`INFINITY` with no normal — a non-`None` distance lying outside the open
interval `(ray.min_distance, ray.max_distance)`.  Evaluated at the unit box
and a ray pointing away from it. -/
theorem box_miss_distance_outside_range :
    boxIntersection unitBox missRay = some (INFINITY, none) ∧
    ¬ missRay.inRangeE INFINITY := by
  constructor
  · have h1 : ¬ missRay.inRangeE (slabDist (unitBox.minv 0)
        (missRay.source.get 0) (missRay.direction.get 0)) := by
      rw [show unitBox.minv 0 = ((0 : ℝ) : EReal) from rfl,
        show missRay.source.get 0 = (2 : ℝ) from rfl,
        show missRay.direction.get 0 = (1 : ℝ) from rfl,
        slabDist_coe, inRangeE_coe_top missRay rfl rfl]
      norm_num
    have h2 : ¬ missRay.inRangeE (slabDist (unitBox.maxv 0)
        (missRay.source.get 0) (missRay.direction.get 0)) := by
      rw [show unitBox.maxv 0 = ((1 : ℝ) : EReal) from rfl,
        show missRay.source.get 0 = (2 : ℝ) from rfl,
        show missRay.direction.get 0 = (1 : ℝ) from rfl,
        slabDist_coe, inRangeE_coe_top missRay rfl rfl]
      norm_num
    have hdir : missRay.direction.get 0 ≠ 0 := by
      norm_num [missRay, Vec3.get]
    rw [boxIntersection, if_pos hdir, boxAxisPair, boxPlaneStep_miss h1,
      boxPlaneStep_miss h2]
  · simp [Ray.inRangeE, INFINITY]

/-- Claim C3: `AxisAlignedBox._intersection` returns from inside the
per-axis loop after the first axis pair the ray is not parallel to.  On
`slantRay` (which truly enters `unitBox` through the `z = 0` face at
distance `5/4`) the code reports the `x = 1` face at distance `5/3`,
whereas the spec's all-three-axis slab test reports the genuine global
minimum `5/4 < 5/3`. -/
theorem box_early_return_misses_minimum :
    boxIntersection unitBox slantRay =
      some ((((5 : ℝ) / 3 : ℝ) : EReal), some ⟨1, 0, 0⟩) ∧
    boxIntersectionAllAxes unitBox slantRay =
      ((((5 : ℝ) / 4 : ℝ) : EReal), some ⟨0, 0, -1⟩) ∧
    ((((5 : ℝ) / 4 : ℝ) : EReal)) < ((((5 : ℝ) / 3 : ℝ) : EReal)) := by
  have hsrc0 : slantRay.source.get 0 = (0 : ℝ) := rfl
  have hsrc1 : slantRay.source.get 1 = (1 / 2 : ℝ) := rfl
  have hsrc2 : slantRay.source.get 2 = (-1 : ℝ) := rfl
  have hdir0 : slantRay.direction.get 0 = (3 / 5 : ℝ) := rfl
  have hdir1 : slantRay.direction.get 1 = (0 : ℝ) := rfl
  have hdir2 : slantRay.direction.get 2 = (4 / 5 : ℝ) := rfl
  have hne0 : slantRay.direction.get 0 ≠ 0 := by rw [hdir0]; norm_num
  have hne2 : slantRay.direction.get 2 ≠ 0 := by rw [hdir2]; norm_num
  -- axis pair 0, `x = 0` plane: behind the source
  have hx0 : ¬ slantRay.inRangeE (slabDist (unitBox.minv 0)
      (slantRay.source.get 0) (slantRay.direction.get 0)) := by
    rw [show unitBox.minv 0 = ((0 : ℝ) : EReal) from rfl, hsrc0, hdir0,
      slabDist_coe, inRangeE_coe_top slantRay rfl rfl]
    norm_num
  -- axis pair 0, `x = 1` plane: hit at `5/3`, inside the y and z slabs
  have hx1v : slabDist (unitBox.maxv 0) (slantRay.source.get 0)
      (slantRay.direction.get 0) = (((5 : ℝ) / 3 : ℝ) : EReal) := by
    rw [show unitBox.maxv 0 = ((1 : ℝ) : EReal) from rfl, hsrc0, hdir0,
      slabDist_coe, EReal.coe_eq_coe_iff]
    norm_num
  have hx1r : slantRay.inRangeE (slabDist (unitBox.maxv 0)
      (slantRay.source.get 0) (slantRay.direction.get 0)) := by
    rw [hx1v, inRangeE_coe_top slantRay rfl rfl]
    norm_num
  have hx1b1 : unitBox.minv 1 ≤
      ((slantRay.source.get 1 + (slabDist (unitBox.maxv 0)
        (slantRay.source.get 0) (slantRay.direction.get 0)).toReal *
          slantRay.direction.get 1 : ℝ) : EReal) ∧
      ((slantRay.source.get 1 + (slabDist (unitBox.maxv 0)
        (slantRay.source.get 0) (slantRay.direction.get 0)).toReal *
          slantRay.direction.get 1 : ℝ) : EReal) ≤ unitBox.maxv 1 := by
    rw [hx1v, EReal.toReal_coe, hsrc1, hdir1,
      show unitBox.minv 1 = ((0 : ℝ) : EReal) from rfl,
      show unitBox.maxv 1 = ((1 : ℝ) : EReal) from rfl]
    constructor <;> rw [EReal.coe_le_coe_iff] <;> norm_num
  have hx1b3 : (unitBox.minv 2 ≤
      ((slantRay.source.get 2 + (slabDist (unitBox.maxv 0)
        (slantRay.source.get 0) (slantRay.direction.get 0)).toReal *
          slantRay.direction.get 2 : ℝ) : EReal) ∧
      ((slantRay.source.get 2 + (slabDist (unitBox.maxv 0)
        (slantRay.source.get 0) (slantRay.direction.get 0)).toReal *
          slantRay.direction.get 2 : ℝ) : EReal) ≤ unitBox.maxv 2) ∧
      slabDist (unitBox.maxv 0) (slantRay.source.get 0)
        (slantRay.direction.get 0) < INFINITY := by
    rw [hx1v, EReal.toReal_coe, hsrc2, hdir2,
      show unitBox.minv 2 = ((0 : ℝ) : EReal) from rfl,
      show unitBox.maxv 2 = ((1 : ℝ) : EReal) from rfl]
    refine ⟨⟨?_, ?_⟩, EReal.coe_lt_top _⟩ <;> rw [EReal.coe_le_coe_iff] <;>
      norm_num
  -- the first-axis result shared by the code and the spec version
  have haxis0 : boxAxisPair unitBox slantRay 0 1 2 ⟨1, 0, 0⟩ (INFINITY, none) =
      ((((5 : ℝ) / 3 : ℝ) : EReal), some ⟨1, 0, 0⟩) := by
    rw [boxAxisPair, boxPlaneStep_miss hx0, boxPlaneStep_hit hx1r hx1b1 hx1b3,
      hx1v]
  have hcode : boxIntersection unitBox slantRay =
      some ((((5 : ℝ) / 3 : ℝ) : EReal), some ⟨1, 0, 0⟩) := by
    rw [boxIntersection, if_pos hne0, haxis0]
  -- axis pair 2, `z = 0` plane: hit at `5/4`, better than `5/3`
  have hz0v : slabDist (unitBox.minv 2) (slantRay.source.get 2)
      (slantRay.direction.get 2) = (((5 : ℝ) / 4 : ℝ) : EReal) := by
    rw [show unitBox.minv 2 = ((0 : ℝ) : EReal) from rfl, hsrc2, hdir2,
      slabDist_coe, EReal.coe_eq_coe_iff]
    norm_num
  have hz0r : slantRay.inRangeE (slabDist (unitBox.minv 2)
      (slantRay.source.get 2) (slantRay.direction.get 2)) := by
    rw [hz0v, inRangeE_coe_top slantRay rfl rfl]
    norm_num
  have hz0b1 : unitBox.minv 0 ≤
      ((slantRay.source.get 0 + (slabDist (unitBox.minv 2)
        (slantRay.source.get 2) (slantRay.direction.get 2)).toReal *
          slantRay.direction.get 0 : ℝ) : EReal) ∧
      ((slantRay.source.get 0 + (slabDist (unitBox.minv 2)
        (slantRay.source.get 2) (slantRay.direction.get 2)).toReal *
          slantRay.direction.get 0 : ℝ) : EReal) ≤ unitBox.maxv 0 := by
    rw [hz0v, EReal.toReal_coe, hsrc0, hdir0,
      show unitBox.minv 0 = ((0 : ℝ) : EReal) from rfl,
      show unitBox.maxv 0 = ((1 : ℝ) : EReal) from rfl]
    constructor <;> rw [EReal.coe_le_coe_iff] <;> norm_num
  have hz0b3 : (unitBox.minv 1 ≤
      ((slantRay.source.get 1 + (slabDist (unitBox.minv 2)
        (slantRay.source.get 2) (slantRay.direction.get 2)).toReal *
          slantRay.direction.get 1 : ℝ) : EReal) ∧
      ((slantRay.source.get 1 + (slabDist (unitBox.minv 2)
        (slantRay.source.get 2) (slantRay.direction.get 2)).toReal *
          slantRay.direction.get 1 : ℝ) : EReal) ≤ unitBox.maxv 1) ∧
      slabDist (unitBox.minv 2) (slantRay.source.get 2)
        (slantRay.direction.get 2) <
        (((((5 : ℝ) / 3 : ℝ) : EReal), some (⟨1, 0, 0⟩ : Vec3)) :
          EReal × Option Vec3).1 := by
    rw [hz0v, EReal.toReal_coe, hsrc1, hdir1,
      show unitBox.minv 1 = ((0 : ℝ) : EReal) from rfl,
      show unitBox.maxv 1 = ((1 : ℝ) : EReal) from rfl]
    refine ⟨⟨?_, ?_⟩, ?_⟩ <;>
      first
        | (rw [EReal.coe_le_coe_iff]; norm_num)
        | (rw [show ((((((5 : ℝ) / 3 : ℝ) : EReal), some (⟨1, 0, 0⟩ : Vec3)) :
              EReal × Option Vec3).1) = (((5 : ℝ) / 3 : ℝ) : EReal) from rfl,
            EReal.coe_lt_coe_iff]; norm_num)
  -- axis pair 2, `z = 1` plane: exits the x slab
  have hz1v : slabDist (unitBox.maxv 2) (slantRay.source.get 2)
      (slantRay.direction.get 2) = (((5 : ℝ) / 2 : ℝ) : EReal) := by
    rw [show unitBox.maxv 2 = ((1 : ℝ) : EReal) from rfl, hsrc2, hdir2,
      slabDist_coe, EReal.coe_eq_coe_iff]
    norm_num
  have hz1r : slantRay.inRangeE (slabDist (unitBox.maxv 2)
      (slantRay.source.get 2) (slantRay.direction.get 2)) := by
    rw [hz1v, inRangeE_coe_top slantRay rfl rfl]
    norm_num
  have hz1o : ¬ (unitBox.minv 0 ≤
      ((slantRay.source.get 0 + (slabDist (unitBox.maxv 2)
        (slantRay.source.get 2) (slantRay.direction.get 2)).toReal *
          slantRay.direction.get 0 : ℝ) : EReal) ∧
      ((slantRay.source.get 0 + (slabDist (unitBox.maxv 2)
        (slantRay.source.get 2) (slantRay.direction.get 2)).toReal *
          slantRay.direction.get 0 : ℝ) : EReal) ≤ unitBox.maxv 0) := by
    rw [hz1v, EReal.toReal_coe, hsrc0, hdir0,
      show unitBox.minv 0 = ((0 : ℝ) : EReal) from rfl,
      show unitBox.maxv 0 = ((1 : ℝ) : EReal) from rfl]
    intro h
    rcases h with ⟨-, h2⟩
    rw [EReal.coe_le_coe_iff] at h2
    norm_num at h2
  have hneg : Vec3.neg ⟨0, 0, 1⟩ = (⟨0, 0, -1⟩ : Vec3) := by
    simp [Vec3.neg]
  have hspec : boxIntersectionAllAxes unitBox slantRay =
      ((((5 : ℝ) / 4 : ℝ) : EReal), some ⟨0, 0, -1⟩) := by
    simp only [boxIntersectionAllAxes]
    rw [if_neg hne0, if_pos hdir1, if_neg hne2, haxis0, boxAxisPair,
      boxPlaneStep_hit hz0r hz0b1 hz0b3, boxPlaneStep_out1 hz1r hz1o, hz0v,
      hneg]
  refine ⟨hcode, hspec, ?_⟩
  rw [EReal.coe_lt_coe_iff]
  norm_num

/-- Claim C5: `Inverse` proxies `material`, `shader` and the intersection
query (same distance, sign-flipped normal) to the wrapped object, but its
public `bounding_box()` does **not** return the wrapped object's box:
`Inverse.__init__` never runs `Primitive.__init__`, so the attribute
`_cached_bounding_box` does not exist and `bounding_box()` raises
`AttributeError` — even though the wrapped sphere's own `bounding_box()`
succeeds. -/
theorem inverse_proxies_except_bounding_box :
    (∀ o : CObj, (CObj.inv o).material = o.material) ∧
    (∀ o : CObj, (CObj.inv o).shader = o.shader) ∧
    (∀ (o : CObj) (r : Ray) (compute_normal : Bool),
      (CObj.inv o).intersection r compute_normal =
        (o.intersection r compute_normal).map
          (fun h => (h.1, h.2.map Vec3.neg))) ∧
    (CObj.inv (CObj.prim (Solid.sphere unitSphere) none none)).boundingBox =
      .error () ∧
    (CObj.prim (Solid.sphere unitSphere) none none).boundingBox =
      .ok (some unitSphere.boundingBox) := by
  refine ⟨fun o => rfl, fun o => rfl, fun o r cn => rfl, rfl, rfl⟩

theorem csg_backRay : csgRay.negate =
    ⟨⟨1, 0, 0⟩, ⟨1, 0, 0⟩, (((-3 : ℝ)) : EReal), ⊤⟩ := by
  simp only [Ray.negate, Ray.make, csgRay, Vec3.neg, Vec3.normalized,
    Vec3.norm, Vec3.norm2, Vec3.div]
  norm_num

theorem csg_hA_fwd : unitSphere.intersection csgRay true =
    (some 0, some ⟨1, 0, 0⟩) := by
  simp only [Sphere.intersection, Sphere.radius2, unitSphere,
    show csgRay.source = ⟨1, 0, 0⟩ from rfl,
    show csgRay.direction = ⟨-1, 0, 0⟩ from rfl,
    Vec3.sub, Vec3.dot, Vec3.norm2, Vec3.normalized, Vec3.norm, Vec3.div,
    Vec3.add, Vec3.smul, Ray.point, inRange_coe_top csgRay rfl rfl]
  norm_num

theorem csg_backRay_eq : csgRay.negate = csgBack := by
  simp only [Ray.negate, Ray.make, csgRay, csgBack, Vec3.neg, Vec3.normalized,
    Vec3.norm, Vec3.norm2, Vec3.div]
  norm_num

theorem csg_hA_back : unitSphere.intersection csgBack true =
    (some (-2), some ⟨-1, 0, 0⟩) := by
  simp only [Sphere.intersection, Sphere.radius2, unitSphere,
    show csgBack.source = ⟨1, 0, 0⟩ from rfl,
    show csgBack.direction = ⟨1, 0, 0⟩ from rfl,
    Vec3.sub, Vec3.dot, Vec3.norm2, Vec3.normalized, Vec3.norm, Vec3.div,
    Vec3.add, Vec3.smul, Ray.point, inRange_coe_top csgBack rfl rfl]
  norm_num

theorem csg_hB_fwd : sphereB.intersection csgRay true =
    (some 5, some ⟨1, 0, 0⟩) := by
  simp only [Sphere.intersection, Sphere.radius2, sphereB,
    show csgRay.source = ⟨1, 0, 0⟩ from rfl,
    show csgRay.direction = ⟨-1, 0, 0⟩ from rfl,
    Vec3.sub, Vec3.dot, Vec3.norm2, Vec3.normalized, Vec3.norm, Vec3.div,
    Vec3.add, Vec3.smul, Ray.point, inRange_coe_top csgRay rfl rfl]
  norm_num

theorem csg_hB_back : sphereB.intersection csgBack true = (none, none) := by
  simp only [Sphere.intersection, Sphere.radius2, sphereB,
    show csgBack.source = ⟨1, 0, 0⟩ from rfl,
    show csgBack.direction = ⟨1, 0, 0⟩ from rfl,
    Vec3.sub, Vec3.dot, Vec3.norm2, Vec3.normalized, Vec3.norm, Vec3.div,
    Vec3.add, Vec3.smul, Ray.point, inRange_coe_top csgBack rfl rfl]
  norm_num

theorem csg_not_inside1 :
    ¬ CObj.insideTest (some (((0 : ℝ)) : EReal), some ⟨1, 0, 0⟩)
      (some (((-2 : ℝ)) : EReal), some ⟨-1, 0, 0⟩) csgRay csgBack := by
  simp only [CObj.insideTest, Option.elim,
    show csgRay.direction = ⟨-1, 0, 0⟩ from rfl, Vec3.dot,
    Ray.inRangeE, not_or, not_exists]
  constructor
  · intro d hd
    rcases hd with ⟨-, -, hlt⟩
    norm_num at hlt
  · intro d hd
    rcases hd with ⟨-, -, hlt⟩
    norm_num at hlt

theorem csg_not_inside2 :
    ¬ CObj.insideTest (some (((5 : ℝ)) : EReal), some ⟨1, 0, 0⟩)
      (none, none) csgRay csgBack := by
  simp only [CObj.insideTest, Option.elim,
    show csgRay.direction = ⟨-1, 0, 0⟩ from rfl, Vec3.dot,
    Ray.inRangeE, not_or, not_exists]
  constructor
  · intro d hd
    rcases hd with ⟨-, -, hlt⟩
    norm_num at hlt
  · intro d hd
    rcases hd with ⟨hnone, -⟩
    simp at hnone

/-- Claim C4: with the ray's source on the first sphere's surface and
`min_distance = -3`, both children report forward in-range hits (at `0.0`
and at `5.0`) and the double-cast classification puts the source inside
neither child, yet the node reports the **nearer** hit `0.0` instead of the
farther hit `5.0`: the ordering expression `(d or INFINITY)` treats the
falsy float `0.0` like `None` and replaces it by `INFINITY`. -/
theorem csg_zero_distance_hit_not_farther :
    csgNode.intersection csgRay true =
      some (some (((0 : ℝ)) : EReal), some ⟨1, 0, 0⟩) ∧
    (CObj.prim (Solid.sphere unitSphere) none none).intersection csgRay true =
      some (some (((0 : ℝ)) : EReal), some ⟨1, 0, 0⟩) ∧
    (CObj.prim (Solid.sphere sphereB) none none).intersection csgRay true =
      some (some (((5 : ℝ)) : EReal), some ⟨1, 0, 0⟩) ∧
    csgRay.inRange 0 ∧ csgRay.inRange 5 ∧ (0 : ℝ) ≠ 5 := by
  have cA_fwd : (CObj.prim (Solid.sphere unitSphere) none none).intersection
      csgRay true = some (some (((0 : ℝ)) : EReal), some ⟨1, 0, 0⟩) := by
    simp [CObj.intersection, Solid.intersection, csg_hA_fwd]
  have cA_back : (CObj.prim (Solid.sphere unitSphere) none none).intersection
      csgRay.negate true =
      some (some (((-2 : ℝ)) : EReal), some ⟨-1, 0, 0⟩) := by
    rw [csg_backRay_eq]
    simp [CObj.intersection, Solid.intersection, csg_hA_back]
  have cB_fwd : (CObj.prim (Solid.sphere sphereB) none none).intersection
      csgRay true = some (some (((5 : ℝ)) : EReal), some ⟨1, 0, 0⟩) := by
    simp [CObj.intersection, Solid.intersection, csg_hB_fwd]
  have cB_back : (CObj.prim (Solid.sphere sphereB) none none).intersection
      csgRay.negate true = some (none, none) := by
    rw [csg_backRay_eq]
    simp [CObj.intersection, Solid.intersection, csg_hB_back]
  have hpyor : ¬ (CObj.pyOr (some (((0 : ℝ)) : EReal)) <
      CObj.pyOr (some (((5 : ℝ)) : EReal))) := by
    rw [show CObj.pyOr (some (((0 : ℝ)) : EReal)) = ⊤ from by
        simp [CObj.pyOr, INFINITY],
      show CObj.pyOr (some (((5 : ℝ)) : EReal)) = (((5 : ℝ)) : EReal) from by
        rw [CObj.pyOr]
        rw [if_neg ((EReal.coe_ne_zero).mpr (by norm_num))]]
    exact not_top_lt
  have hmain : csgNode.intersection csgRay true =
      some (some (((0 : ℝ)) : EReal), some ⟨1, 0, 0⟩) := by
    rw [show csgNode.intersection csgRay true =
        (match (CObj.prim (Solid.sphere unitSphere) none none).intersection
            csgRay true with
        | none => none
        | some f1 =>
          match (CObj.prim (Solid.sphere unitSphere) none none).intersection
              csgRay.negate true with
          | none => none
          | some b1 =>
            let inside1 := CObj.insideTest f1 b1 csgRay csgRay.negate
            match (CObj.prim (Solid.sphere sphereB) none none).intersection
                csgRay true with
            | none => none
            | some f2 =>
              match (CObj.prim (Solid.sphere sphereB) none none).intersection
                  csgRay.negate true with
              | none => none
              | some b2 =>
                let inside2 := CObj.insideTest f2 b2 csgRay csgRay.negate
                let firstSecond :=
                  if CObj.pyOr f1.1 < CObj.pyOr f2.1 then (f1, f2) else (f2, f1)
                some
                  (if inside1 then
                    (if inside2 then firstSecond.1 else f2)
                  else if inside2 then f1
                  else if f1.1 = none ∨ f2.1 = none then (none, none)
                  else firstSecond.2)) from rfl]
    rw [cA_fwd, cA_back, cB_fwd, cB_back]
    simp only [csg_backRay_eq]
    rw [if_neg hpyor]
    rw [if_neg csg_not_inside1, if_neg csg_not_inside2]
    rw [if_neg (by simp)]
  refine ⟨hmain, cA_fwd, cB_fwd, ?_, ?_, by norm_num⟩ <;>
    rw [inRange_coe_top csgRay rfl rfl] <;> norm_num

theorem shadowRay_make :
    Ray.make ⟨0, 0, 0⟩ ((⟨2, 0, 0⟩ : Vec3).sub ⟨0, 0, 0⟩) = shadowRay := by
  have h4 : Real.sqrt (4 : ℝ) = 2 := by
    rw [show (4 : ℝ) = 2 ^ 2 by norm_num,
      Real.sqrt_sq (by norm_num : (0 : ℝ) ≤ 2)]
  simp only [Ray.make, shadowRay, Vec3.sub, Vec3.normalized, Vec3.norm,
    Vec3.norm2, Vec3.div, INFINITY]
  norm_num [h4]

theorem shadow_sphere_hit : shadowSphere.intersection shadowRay false =
    (some 2, none) := by
  simp only [Sphere.intersection, Sphere.radius2, shadowSphere,
    show shadowRay.source = ⟨0, 0, 0⟩ from rfl,
    show shadowRay.direction = ⟨1, 0, 0⟩ from rfl,
    Vec3.sub, Vec3.dot, Vec3.norm2, Vec3.normalized, Vec3.norm, Vec3.div,
    Vec3.add, Vec3.smul, Ray.point, inRange_coe_top shadowRay rfl rfl]
  norm_num

theorem shadow_scene_nearest : sceneIntersection shadowScene shadowRay false =
    some ⟨some ((2 : ℝ) : EReal),
      some (0, CObj.prim (Solid.sphere shadowSphere) none none), none⟩ := by
  simp [sceneIntersection, shadowScene, List.foldlM, CObj.intersection,
    Solid.intersection, shadow_sphere_hit, stepMin, accInit, finalize,
    INFINITY, EReal.coe_lt_top, EReal.coe_ne_top]

/-- Claim C6: `Scene.is_obscured` violates both halves of the claim.  With
no occluder at all (an empty scene) the nearest-intersection distance is
`None` and `distance - diff.norm()` raises `TypeError` instead of reporting
"fully lit".  And when the nearest intersection lies at *exactly* the
expected distance to the candidate point (a point on the queried object's
own surface), it reports the point obscured: the comparison
`(distance - diff.norm()) < tolerance` is satisfied by a perfect match
(the renderer's own shadow test in `Renderer._compute_diffuse` uses the
opposite orientation `(expected - distance) > tolerance`). -/
theorem is_obscured_spec_violations :
    isObscured ([] : List SceneObj) ⟨0, 0, 0⟩ ⟨1, 0, 0⟩ = none ∧
    isObscured shadowScene ⟨0, 0, 0⟩ ⟨2, 0, 0⟩ = some true ∧
    ((⟨2, 0, 0⟩ : Vec3).sub ⟨0, 0, 0⟩).norm = 2 ∧
    sceneIntersection shadowScene shadowRay false =
      some ⟨some ((2 : ℝ) : EReal),
        some (0, CObj.prim (Solid.sphere shadowSphere) none none), none⟩ := by
  have hnorm : ((⟨2, 0, 0⟩ : Vec3).sub ⟨0, 0, 0⟩).norm = 2 := by
    simp only [Vec3.sub, Vec3.norm, Vec3.norm2]
    rw [show ((2 : ℝ) - 0) * ((2 : ℝ) - 0) + (0 - 0) * (0 - 0) +
        (0 - 0) * (0 - 0) = 2 ^ 2 by norm_num,
      Real.sqrt_sq (by norm_num : (0 : ℝ) ≤ 2)]
  refine ⟨?_, ?_, hnorm, shadow_scene_nearest⟩
  · simp [isObscured, sceneIntersection, List.foldlM, finalize, accInit,
      INFINITY]
  · rw [isObscured]
    simp only [shadowRay_make, shadow_scene_nearest, bind, Option.bind, hnorm,
      Option.some.injEq]
    rw [show (pure (decide (((2 : ℝ) : EReal) - ((2 : ℝ) : ℝ) <
        ((INTERSECTION_TOLERANCE : ℝ) : EReal))) : Option Bool) =
      some (decide (((2 : ℝ) : EReal) - ((2 : ℝ) : ℝ) <
        ((INTERSECTION_TOLERANCE : ℝ) : EReal))) from rfl]
    rw [Option.some.injEq, decide_eq_true_eq]
    rw [show ((2 : ℝ) : EReal) - ((2 : ℝ) : EReal) =
        (((2 : ℝ) - (2 : ℝ) : ℝ) : EReal) from (EReal.coe_sub 2 2).symm,
      EReal.coe_lt_coe_iff]
    norm_num [INTERSECTION_TOLERANCE]

theorem sphere_dist_eq (s : Sphere) (r : Ray) (cn : Bool) :
    (s.intersection r cn).1 =
      if s.disc r < 0 then none
      else
        if r.inRange (s.root1 r) then
          if r.inRange (s.root2 r) then some (min (s.root1 r) (s.root2 r))
          else some (s.root1 r)
        else if r.inRange (s.root2 r) then some (s.root2 r)
        else none := rfl

theorem sphere_normal_eq (s : Sphere) (r : Ray) :
    (s.intersection r true).2 =
      match (s.intersection r true).1 with
      | none => none
      | some d => some ((r.point d).sub s.centre).normalized := rfl

theorem Vec3.norm2_nonneg (a : Vec3) : 0 ≤ a.norm2 := by
  have hx := mul_self_nonneg a.x
  have hy := mul_self_nonneg a.y
  have hz := mul_self_nonneg a.z
  rw [Vec3.norm2]
  linarith

theorem Vec3.norm_nonneg (a : Vec3) : 0 ≤ a.norm :=
  Real.sqrt_nonneg _

theorem Vec3.norm_mul_self (a : Vec3) : a.norm * a.norm = a.norm2 :=
  Real.mul_self_sqrt a.norm2_nonneg

theorem Vec3.norm_smul (k : ℝ) (a : Vec3) :
    (Vec3.smul k a).norm = |k| * a.norm := by
  simp only [Vec3.smul, Vec3.norm, Vec3.norm2]
  rw [show a.x * k * (a.x * k) + a.y * k * (a.y * k) + a.z * k * (a.z * k) =
      k ^ 2 * (a.x * a.x + a.y * a.y + a.z * a.z) by ring,
    Real.sqrt_mul (sq_nonneg k), Real.sqrt_sq_eq_abs]

/-- Claim C7: for a ray aimed from outside at the centre, the sphere query
returns the distance `‖centre - source‖ - radius` (whenever that distance
lies in the ray's valid interval), with a unit normal parallel to
`hit - centre`; and in general the returned distance is the smaller
in-range root of the quadratic (`distance2`), falling back to the other
root when only one is in range, and `None` when none is. -/
theorem sphere_intersection_spec :
    (∀ (s : Sphere) (r : Ray),
      0 < s.radius →
      s.radius < (s.centre.sub r.source).norm →
      r.direction = (s.centre.sub r.source).normalized →
      r.inRange ((s.centre.sub r.source).norm - s.radius) →
      (s.intersection r true).1 =
        some ((s.centre.sub r.source).norm - s.radius) ∧
      ∃ n, (s.intersection r true).2 = some n ∧ n.norm = 1 ∧
        n = Vec3.smul (1 / s.radius)
          ((r.point ((s.centre.sub r.source).norm - s.radius)).sub
            s.centre)) ∧
    (∀ (s : Sphere) (r : Ray) (cn : Bool),
      (0 ≤ s.disc r → r.inRange (s.root1 r) → r.inRange (s.root2 r) →
        (s.intersection r cn).1 = some (s.root2 r)) ∧
      (0 ≤ s.disc r → r.inRange (s.root1 r) → ¬ r.inRange (s.root2 r) →
        (s.intersection r cn).1 = some (s.root1 r)) ∧
      (0 ≤ s.disc r → ¬ r.inRange (s.root1 r) → r.inRange (s.root2 r) →
        (s.intersection r cn).1 = some (s.root2 r)) ∧
      (0 ≤ s.disc r → ¬ r.inRange (s.root1 r) → ¬ r.inRange (s.root2 r) →
        (s.intersection r cn).1 = none) ∧
      (s.disc r < 0 → (s.intersection r cn).1 = none)) := by
  have hroot2_le : ∀ (s : Sphere) (r : Ray), s.root2 r ≤ s.root1 r := by
    intro s r
    have := Real.sqrt_nonneg (s.disc r)
    rw [Sphere.root1, Sphere.root2]
    linarith
  have hgen : ∀ (s : Sphere) (r : Ray) (cn : Bool),
      (0 ≤ s.disc r → r.inRange (s.root1 r) → r.inRange (s.root2 r) →
        (s.intersection r cn).1 = some (s.root2 r)) ∧
      (0 ≤ s.disc r → r.inRange (s.root1 r) → ¬ r.inRange (s.root2 r) →
        (s.intersection r cn).1 = some (s.root1 r)) ∧
      (0 ≤ s.disc r → ¬ r.inRange (s.root1 r) → r.inRange (s.root2 r) →
        (s.intersection r cn).1 = some (s.root2 r)) ∧
      (0 ≤ s.disc r → ¬ r.inRange (s.root1 r) → ¬ r.inRange (s.root2 r) →
        (s.intersection r cn).1 = none) ∧
      (s.disc r < 0 → (s.intersection r cn).1 = none) := by
    intro s r cn
    refine ⟨?_, ?_, ?_, ?_, ?_⟩
    · intro h1 h2 h3
      rw [sphere_dist_eq, if_neg (not_lt.mpr h1), if_pos h2, if_pos h3,
        min_eq_right (hroot2_le s r)]
    · intro h1 h2 h3
      rw [sphere_dist_eq, if_neg (not_lt.mpr h1), if_pos h2, if_neg h3]
    · intro h1 h2 h3
      rw [sphere_dist_eq, if_neg (not_lt.mpr h1), if_neg h2, if_pos h3]
    · intro h1 h2 h3
      rw [sphere_dist_eq, if_neg (not_lt.mpr h1), if_neg h2, if_neg h3]
    · intro h1
      rw [sphere_dist_eq, if_pos h1]
  refine ⟨?_, hgen⟩
  intro s r hr hout hdir hin
  have htpos : 0 < (s.centre.sub r.source).norm := lt_trans hr hout
  have htne : (s.centre.sub r.source).norm ≠ 0 := ne_of_gt htpos
  have ht2 : (s.centre.sub r.source).norm * (s.centre.sub r.source).norm =
      (s.centre.sub r.source).norm2 := Vec3.norm_mul_self _
  have hproj : s.proj r = (s.centre.sub r.source).norm := by
    rw [Sphere.proj, hdir]
    simp only [Vec3.normalized, Vec3.div, Vec3.dot]
    rw [Vec3.norm2] at ht2
    field_simp
    linarith
  have hdisc : s.disc r = s.radius * s.radius := by
    rw [Sphere.disc, hproj, Sphere.radius2, ← ht2]
    ring
  have hdisc_nonneg : 0 ≤ s.disc r := by
    rw [hdisc]
    exact mul_self_nonneg _
  have hsqrt : Real.sqrt (s.disc r) = s.radius := by
    rw [hdisc, show s.radius * s.radius = s.radius ^ 2 by ring,
      Real.sqrt_sq hr.le]
  have hroot2 : s.root2 r = (s.centre.sub r.source).norm - s.radius := by
    rw [Sphere.root2, hproj, hsqrt]
  have hin2 : r.inRange (s.root2 r) := by
    rw [hroot2]
    exact hin
  have hdist : (s.intersection r true).1 =
      some ((s.centre.sub r.source).norm - s.radius) := by
    by_cases hv1 : r.inRange (s.root1 r)
    · rw [(hgen s r true).1 hdisc_nonneg hv1 hin2, hroot2]
    · rw [(hgen s r true).2.2.1 hdisc_nonneg hv1 hin2, hroot2]
  -- the hit point lies at distance `radius` from the centre
  have hpc : (r.point ((s.centre.sub r.source).norm - s.radius)).sub s.centre =
      Vec3.smul (-(s.radius) / (s.centre.sub r.source).norm)
        (s.centre.sub r.source) := by
    set D := s.centre.sub r.source with hD
    have hDx : D.x = s.centre.x - r.source.x := by rw [hD]; rfl
    have hDy : D.y = s.centre.y - r.source.y := by rw [hD]; rfl
    have hDz : D.z = s.centre.z - r.source.z := by rw [hD]; rfl
    simp only [Ray.point, hdir, Vec3.normalized, Vec3.div, Vec3.add,
      Vec3.smul, Vec3.sub, Vec3.mk.injEq]
    rw [hDx, hDy, hDz]
    refine ⟨?_, ?_, ?_⟩ <;> (field_simp; ring)
  have hpcnorm :
      ((r.point ((s.centre.sub r.source).norm - s.radius)).sub s.centre).norm =
      s.radius := by
    rw [hpc, Vec3.norm_smul, abs_div, abs_neg, abs_of_pos hr,
      abs_of_pos htpos]
    field_simp
  have hnormal : (s.intersection r true).2 =
      some ((r.point ((s.centre.sub r.source).norm - s.radius)).sub
        s.centre).normalized := by
    rw [sphere_normal_eq, hdist]
  refine ⟨hdist, _, hnormal, ?_, ?_⟩
  · rw [Vec3.normalized, hpcnorm, show ((r.point ((s.centre.sub r.source).norm
        - s.radius)).sub s.centre).div s.radius = Vec3.smul (1 / s.radius)
        ((r.point ((s.centre.sub r.source).norm - s.radius)).sub s.centre) from
      by simp only [Vec3.div, Vec3.smul, Vec3.mk.injEq]
         refine ⟨?_, ?_, ?_⟩ <;> ring,
      Vec3.norm_smul, hpcnorm, abs_of_pos (one_div_pos.mpr hr)]
    field_simp
  · rw [Vec3.normalized, hpcnorm]
    simp only [Vec3.div, Vec3.smul, Vec3.mk.injEq]
    refine ⟨?_, ?_, ?_⟩ <;> ring

/-- Witness for C7: the aimed-at-centre theorem applied at `unitSphere` and
`c7Ray` yields the hit distance `‖source - centre‖ - radius`. -/
theorem sphere_intersection_spec_witness :
    (unitSphere.intersection c7Ray true).1 =
      some ((unitSphere.centre.sub c7Ray.source).norm - unitSphere.radius) := by
  have hsqrt9 : Real.sqrt (9 : ℝ) = 3 := by
    rw [show (9 : ℝ) = 3 ^ 2 by norm_num,
      Real.sqrt_sq (by norm_num : (0 : ℝ) ≤ 3)]
  have hnorm : (unitSphere.centre.sub c7Ray.source).norm = 3 := by
    simp only [unitSphere, show c7Ray.source = ⟨3, 0, 0⟩ from rfl, Vec3.sub,
      Vec3.norm, Vec3.norm2]
    norm_num [hsqrt9]
  exact (sphere_intersection_spec.1 unitSphere c7Ray
    (by norm_num [unitSphere])
    (by rw [hnorm]; norm_num [unitSphere])
    (by
      simp only [unitSphere, show c7Ray.direction = ⟨-1, 0, 0⟩ from rfl,
        show c7Ray.source = ⟨3, 0, 0⟩ from rfl, Vec3.sub, Vec3.normalized,
        Vec3.norm, Vec3.norm2, Vec3.div]
      norm_num [hsqrt9])
    (by
      rw [hnorm, inRange_coe_top c7Ray rfl rfl]
      norm_num [unitSphere])).1

/-! ## The open-interval contract for the conforming primitives -/

theorem sphere_hit_in_range (s : Sphere) (r : Ray) (cn : Bool) (d : ℝ)
    (h : (s.intersection r cn).1 = some d) : r.inRange d := by
  rw [sphere_dist_eq] at h
  split_ifs at h with h1 h2 h3 h4
  · rw [Option.some.injEq] at h
    rcases min_cases (s.root1 r) (s.root2 r) with ⟨heq, -⟩ | ⟨heq, -⟩ <;>
      rw [← h, heq] <;> assumption
  · rw [Option.some.injEq] at h
    rw [← h]
    exact h2
  · rw [Option.some.injEq] at h
    rw [← h]
    exact h4

theorem plane_hit_in_range (p : Plane) (r : Ray) (d : ℝ)
    (h : (p.intersection r).1 = some d) : r.inRange d := by
  simp only [Plane.intersection] at h
  split_ifs at h with h1 h2
  · rw [Option.some.injEq] at h
    rw [← h]
    exact h2

theorem icyl_dist_cases (c : InfiniteCylinder) (r : Ray) (cn : Bool) :
    (c.intersection r cn).1 = none ∨
    ∃ d, (c.intersection r cn).1 = some d ∧ r.inRange d := by
  simp only [InfiniteCylinder.intersection]
  split_ifs with h1 h2 h3 h4 <;>
    first
      | exact Or.inl rfl
      | exact Or.inr ⟨_, rfl, by tauto⟩

theorem icyl_hit_in_range (c : InfiniteCylinder) (r : Ray) (cn : Bool) (d : ℝ)
    (h : (c.intersection r cn).1 = some d) : r.inRange d := by
  rcases icyl_dist_cases c r cn with hnone | ⟨d2, hd2, hin⟩
  · rw [h] at hnone
    simp at hnone
  · rw [h] at hd2
    injection hd2 with hdd
    rw [hdd]
    exact hin

theorem cyl_dist_cases (c : Cylinder) (r : Ray) (cn : Bool) :
    (c.intersection r cn).1 = none ∨
    ∃ d, (c.intersection r cn).1 = some d ∧ r.inRange d := by
  simp only [Cylinder.intersection]
  split_ifs with h1 h2 h3 h4 <;>
    first
      | exact Or.inl rfl
      | exact Or.inr ⟨_, rfl, by tauto⟩

theorem cyl_hit_in_range (c : Cylinder) (r : Ray) (cn : Bool) (d : ℝ)
    (h : (c.intersection r cn).1 = some d) : r.inRange d := by
  rcases cyl_dist_cases c r cn with hnone | ⟨d2, hd2, hin⟩
  · rw [h] at hnone
    simp at hnone
  · rw [h] at hd2
    injection hd2 with hdd
    rw [hdd]
    exact hin

/-- Every update of the box accumulator stores an in-range distance, so the
result of `AxisAlignedBox._intersection` is either the initial `INFINITY`
(the buggy miss encoding of C1) or an in-range distance. -/
theorem boxPlaneStep_invariant {b : Box} {r : Ray} {i o1 o2 : Fin 3}
    {p : EReal} {n : Vec3} {acc : EReal × Option Vec3}
    (hacc : acc.1 = INFINITY ∨ r.inRangeE acc.1) :
    (boxPlaneStep b r i o1 o2 p n acc).1 = INFINITY ∨
      r.inRangeE (boxPlaneStep b r i o1 o2 p n acc).1 := by
  simp only [boxPlaneStep]
  split_ifs with h1 h2 h3
  · exact Or.inr h1
  · exact hacc
  · exact hacc
  · exact hacc

theorem box_hit_in_range (b : Box) (r : Ray) (res : EReal × Option Vec3)
    (h : boxIntersection b r = some res) :
    res.1 = INFINITY ∨ r.inRangeE res.1 := by
  have base : ∀ (i o1 o2 : Fin 3) (n : Vec3),
      (boxAxisPair b r i o1 o2 n (INFINITY, none)).1 = INFINITY ∨
        r.inRangeE (boxAxisPair b r i o1 o2 n (INFINITY, none)).1 := by
    intro i o1 o2 n
    exact boxPlaneStep_invariant (boxPlaneStep_invariant (Or.inl rfl))
  rw [boxIntersection] at h
  split_ifs at h with h1 h2 h3 <;>
    · rw [Option.some.injEq] at h
      rw [← h]
      apply base

/-! ## RenderResult round-trip lemmas -/

theorem takeBytes_append (vals : List ℕ) (rest : List Tok) :
    takeBytes vals.length (vals.map Tok.byte ++ rest) = some (vals, rest) := by
  induction vals with
  | nil => rfl
  | cons v vs ih => simp [takeBytes, ih]

theorem takeDbls_append (vals : List ℝ) (rest : List Tok) :
    takeDbls vals.length (vals.map Tok.dbl ++ rest) = some (vals, rest) := by
  induction vals with
  | nil => rfl
  | cons v vs ih => simp [takeDbls, ih]

theorem component_ofValue_value (c : Component) :
    Component.ofValue c.value = some c := by
  cases c <;> rfl

theorem mapM_ofValue_map_value (l : List Component) :
    (l.map Component.value).mapM Component.ofValue = some l := by
  induction l with
  | nil => rfl
  | cons c cs ih =>
      rw [List.map_cons, List.mapM_cons, component_ofValue_value, ih]
      rfl

theorem dec32le_int32 (n : ℕ) (h : n < 2 ^ 32) :
    dec32le [n % 256, n / 256 % 256, n / 65536 % 256, n / 16777216 % 256] =
      n := by
  simp only [dec32le, List.getD_cons_zero, List.getD_cons_succ]
  omega

theorem range_map_getD (n : ℕ) (f : ℕ → ℝ) (i : ℕ) (h : i < n) :
    ((List.range n).map f).getD i 0 = f i := by
  rw [List.getD_eq_getElem?_getD, List.getElem?_map, List.getElem?_range h]
  rfl

theorem renderresult_index_lt_size (res : RenderResult)
    (hnodup : res.components.Nodup) (x y : ℕ) (c : Component)
    (hx : x < res.width) (hy : y < res.height) (hc : c ∈ res.components) :
    res.index x y c < res.size := by
  have hnum : res.numComponents = res.components.length := by
    rw [RenderResult.numComponents, hnodup.dedup]
  have hidx : res.componentIndex c < res.components.length :=
    List.indexOf_lt_length.mpr hc
  rw [RenderResult.index, RenderResult.size, RenderResult.rowStride, hnum]
  have h1 : res.componentIndex c + 1 ≤ res.components.length := hidx
  have h2 : x + 1 ≤ res.width := hx
  have h3 : y + 1 ≤ res.height := hy
  calc res.width * res.components.length * y + res.components.length * x +
        res.componentIndex c + 1
      ≤ res.width * res.components.length * y + res.components.length * x +
        res.components.length := by omega
    _ = res.width * res.components.length * y +
        res.components.length * (x + 1) := by ring
    _ ≤ res.width * res.components.length * y +
        res.components.length * res.width := by
          have := Nat.mul_le_mul_left res.components.length h2
          omega
    _ = res.width * res.components.length * (y + 1) := by ring
    _ ≤ res.width * res.components.length * res.height :=
          Nat.mul_le_mul_left _ h3
    _ = res.width * res.height * res.components.length := by ring

/-- Claim C9 (counterexample side): `tofile` packs the header with
`struct("<3i")`, which raises `struct.error` for a width of `2^31`, so a
`RenderResult` of that width cannot be round-tripped at all. -/
theorem renderresult_tofile_width_overflow :
    (RenderResult.make (2 ^ 31) 1 [Component.red]).tofile = none := by
  rw [RenderResult.tofile, if_neg]
  intro hcon
  exact absurd hcon.1 (by norm_num [RenderResult.make, fitsInt32])

/-- Claim C9 (amended): for every `RenderResult` whose components form a
set (no duplicates) and whose width, height and component count fit in a
signed 32-bit integer, writing with `tofile` and reading back with
`fromfile` reproduces the width, the height, the component list in order,
and every stored value exactly. -/
theorem renderresult_roundtrip (res : RenderResult)
    (hnodup : res.components.Nodup) (hw : fitsInt32 res.width)
    (hh : fitsInt32 res.height) (hc : fitsInt32 res.numComponents) :
    ∃ toks res2, res.tofile = some toks ∧
      RenderResult.fromfile toks = some res2 ∧
      res2.width = res.width ∧ res2.height = res.height ∧
      res2.components = res.components ∧
      ∀ x y c, x < res.width → y < res.height → c ∈ res.components →
        res2.get x y c = res.get x y c := by
  have hnum : res.numComponents = res.components.length := by
    rw [RenderResult.numComponents, hnodup.dedup]
  have htofile : res.tofile = some (magicToks ++ int32le res.width ++
      int32le res.height ++ int32le res.numComponents ++
      res.components.map (fun c => Tok.byte c.value) ++
      (List.range res.size).map (fun i => Tok.dbl (res.data i))) := by
    rw [RenderResult.tofile, if_pos ⟨hw, hh, hc⟩]
  set vals := (List.range res.size).map res.data with hvals
  set res2 : RenderResult := ⟨res.width, res.height, res.components,
    fun i => vals.getD i 0⟩ with hres2
  refine ⟨_, res2, htofile, ?_, rfl, rfl, rfl, ?_⟩
  · -- parse the stream back
    have hmagic : takeBytes 4 (magicToks ++ int32le res.width ++
        int32le res.height ++ int32le res.numComponents ++
        res.components.map (fun c => Tok.byte c.value) ++
        (List.range res.size).map (fun i => Tok.dbl (res.data i))) =
        some ([83, 65, 87, 0], int32le res.width ++ int32le res.height ++
          int32le res.numComponents ++
          res.components.map (fun c => Tok.byte c.value) ++
          (List.range res.size).map (fun i => Tok.dbl (res.data i))) := by
      have := takeBytes_append [83, 65, 87, 0]
        (int32le res.width ++ int32le res.height ++
          int32le res.numComponents ++
          res.components.map (fun c => Tok.byte c.value) ++
          (List.range res.size).map (fun i => Tok.dbl (res.data i)))
      simpa [magicToks, List.append_assoc] using this
    have hhdr : takeBytes 12 (int32le res.width ++ int32le res.height ++
        int32le res.numComponents ++
        res.components.map (fun c => Tok.byte c.value) ++
        (List.range res.size).map (fun i => Tok.dbl (res.data i))) =
        some ([res.width % 256, res.width / 256 % 256,
          res.width / 65536 % 256, res.width / 16777216 % 256,
          res.height % 256, res.height / 256 % 256,
          res.height / 65536 % 256, res.height / 16777216 % 256,
          res.numComponents % 256, res.numComponents / 256 % 256,
          res.numComponents / 65536 % 256,
          res.numComponents / 16777216 % 256],
          res.components.map (fun c => Tok.byte c.value) ++
          (List.range res.size).map (fun i => Tok.dbl (res.data i))) := by
      have := takeBytes_append [res.width % 256, res.width / 256 % 256,
          res.width / 65536 % 256, res.width / 16777216 % 256,
          res.height % 256, res.height / 256 % 256,
          res.height / 65536 % 256, res.height / 16777216 % 256,
          res.numComponents % 256, res.numComponents / 256 % 256,
          res.numComponents / 65536 % 256,
          res.numComponents / 16777216 % 256]
        (res.components.map (fun c => Tok.byte c.value) ++
          (List.range res.size).map (fun i => Tok.dbl (res.data i)))
      simpa [int32le, List.append_assoc] using this
    have ht1 : ([res.width % 256, res.width / 256 % 256,
        res.width / 65536 % 256, res.width / 16777216 % 256,
        res.height % 256, res.height / 256 % 256,
        res.height / 65536 % 256, res.height / 16777216 % 256,
        res.numComponents % 256, res.numComponents / 256 % 256,
        res.numComponents / 65536 % 256,
        res.numComponents / 16777216 % 256].take 4) =
        [res.width % 256, res.width / 256 % 256,
          res.width / 65536 % 256, res.width / 16777216 % 256] := rfl
    have ht2 : (([res.width % 256, res.width / 256 % 256,
        res.width / 65536 % 256, res.width / 16777216 % 256,
        res.height % 256, res.height / 256 % 256,
        res.height / 65536 % 256, res.height / 16777216 % 256,
        res.numComponents % 256, res.numComponents / 256 % 256,
        res.numComponents / 65536 % 256,
        res.numComponents / 16777216 % 256].drop 4).take 4) =
        [res.height % 256, res.height / 256 % 256,
          res.height / 65536 % 256, res.height / 16777216 % 256] := rfl
    have ht3 : ([res.width % 256, res.width / 256 % 256,
        res.width / 65536 % 256, res.width / 16777216 % 256,
        res.height % 256, res.height / 256 % 256,
        res.height / 65536 % 256, res.height / 16777216 % 256,
        res.numComponents % 256, res.numComponents / 256 % 256,
        res.numComponents / 65536 % 256,
        res.numComponents / 16777216 % 256].drop 8) =
        [res.numComponents % 256, res.numComponents / 256 % 256,
          res.numComponents / 65536 % 256,
          res.numComponents / 16777216 % 256] := rfl
    have hdecw : dec32le [res.width % 256, res.width / 256 % 256,
        res.width / 65536 % 256, res.width / 16777216 % 256] = res.width :=
      dec32le_int32 res.width (lt_trans hw (by norm_num))
    have hdech : dec32le [res.height % 256, res.height / 256 % 256,
        res.height / 65536 % 256, res.height / 16777216 % 256] =
        res.height :=
      dec32le_int32 res.height (lt_trans hh (by norm_num))
    have hdecn : dec32le [res.numComponents % 256,
        res.numComponents / 256 % 256, res.numComponents / 65536 % 256,
        res.numComponents / 16777216 % 256] = res.numComponents :=
      dec32le_int32 res.numComponents (lt_trans hc (by norm_num))
    have hcomps : takeBytes res.numComponents
        (res.components.map (fun c => Tok.byte c.value) ++
          (List.range res.size).map (fun i => Tok.dbl (res.data i))) =
        some (res.components.map Component.value,
          (List.range res.size).map (fun i => Tok.dbl (res.data i))) := by
      have := takeBytes_append (res.components.map Component.value)
        ((List.range res.size).map (fun i => Tok.dbl (res.data i)))
      rw [List.length_map] at this
      rw [hnum]
      simpa [List.map_map, Function.comp] using this
    have hdbls : takeDbls (res.width * res.height * res.numComponents)
        ((List.range res.size).map (fun i => Tok.dbl (res.data i))) =
        some (vals, []) := by
      have := takeDbls_append vals []
      rw [hvals, List.length_map, List.length_range] at this
      rw [hnum, show res.width * res.height * res.components.length =
        res.size from rfl]
      simpa [hvals, List.map_map, Function.comp] using this
    rw [RenderResult.fromfile]
    simp only [hmagic, bind, Option.bind, if_true, ht1, ht2, ht3, hhdr,
      hdecw, hdech, hdecn, hcomps, mapM_ofValue_map_value, hdbls, pure]
  · intro x y c hx hy hcmem
    have hlt : res.index x y c < res.size :=
      renderresult_index_lt_size res hnodup x y c hx hy hcmem
    have hsame : res2.index x y c = res.index x y c := rfl
    rw [RenderResult.get, RenderResult.get, hsame]
    show vals.getD (res.index x y c) 0 = res.data (res.index x y c)
    rw [hvals]
    exact range_map_getD res.size res.data _ hlt

/-- Witness for the C9 round-trip at a concrete 1x1 red-only result. -/
theorem renderresult_roundtrip_witness :
    ∃ toks res2,
      (RenderResult.make 1 1 [Component.red]).tofile = some toks ∧
      RenderResult.fromfile toks = some res2 ∧
      res2.width = (RenderResult.make 1 1 [Component.red]).width ∧
      res2.height = (RenderResult.make 1 1 [Component.red]).height ∧
      res2.components = (RenderResult.make 1 1 [Component.red]).components ∧
      ∀ x y c, x < (RenderResult.make 1 1 [Component.red]).width →
        y < (RenderResult.make 1 1 [Component.red]).height →
        c ∈ (RenderResult.make 1 1 [Component.red]).components →
        res2.get x y c = (RenderResult.make 1 1 [Component.red]).get x y c :=
  renderresult_roundtrip (RenderResult.make 1 1 [Component.red])
    (by simp [RenderResult.make])
    (by norm_num [RenderResult.make, fitsInt32])
    (by norm_num [RenderResult.make, fitsInt32])
    (by norm_num [RenderResult.make, fitsInt32, RenderResult.numComponents])

/-! ## Proof scaffolding for the accelerated/naive scene equivalence -/

theorem Vec3.norm_pos (v : Vec3) (h : v ≠ Vec3.zero) : 0 < v.norm := by
  rcases v with ⟨x, y, z⟩
  have hne : x * x + y * y + z * z ≠ 0 := by
    intro hzero
    have hx := mul_self_nonneg x
    have hy := mul_self_nonneg y
    have hz := mul_self_nonneg z
    have hx0 : x * x = 0 := by linarith
    have hy0 : y * y = 0 := by linarith
    have hz0 : z * z = 0 := by linarith
    exact h (by
      simp only [Vec3.zero, Vec3.mk.injEq]
      exact ⟨by nlinarith, by nlinarith, by nlinarith⟩)
  have hnonneg : 0 ≤ x * x + y * y + z * z := by
    have hx := mul_self_nonneg x
    have hy := mul_self_nonneg y
    have hz := mul_self_nonneg z
    linarith
  rw [Vec3.norm, Vec3.norm2]
  exact Real.sqrt_pos.mpr (lt_of_le_of_ne hnonneg (Ne.symm hne))

theorem Vec3.normalized_ne_zero (v : Vec3) (h : v ≠ Vec3.zero) :
    v.normalized ≠ Vec3.zero := by
  have hn := Vec3.norm_pos v h
  rcases v with ⟨x, y, z⟩
  intro hcon
  apply h
  simp only [Vec3.normalized, Vec3.div, Vec3.zero, Vec3.mk.injEq] at hcon ⊢
  rcases hcon with ⟨hx, hy, hz⟩
  have hne := ne_of_gt hn
  exact ⟨by field_simp at hx; exact hx, by field_simp at hy; exact hy,
    by field_simp at hz; exact hz⟩

theorem Vec3.neg_ne_zero (v : Vec3) (h : v ≠ Vec3.zero) :
    v.neg ≠ Vec3.zero := by
  rcases v with ⟨x, y, z⟩
  intro hcon
  apply h
  simp only [Vec3.neg, Vec3.zero, Vec3.mk.injEq] at hcon ⊢
  rcases hcon with ⟨hx, hy, hz⟩
  refine ⟨by linarith, by linarith, by linarith⟩

theorem boxIntersection_isSome (b : Box) (r : Ray)
    (hdir : r.direction ≠ Vec3.zero) :
    ∃ h, boxIntersection b r = some h := by
  rcases hd : r.direction with ⟨x, y, z⟩
  rw [← Option.isSome_iff_exists]
  by_cases hx : x = 0
  · by_cases hy : y = 0
    · by_cases hz : z = 0
      · exact absurd (by rw [hd, hx, hy, hz]; rfl) hdir
      · rw [boxIntersection,
          if_neg (by rw [hd]; simpa [Vec3.get] using hx),
          if_neg (by rw [hd]; simpa [Vec3.get] using hy),
          if_pos (by rw [hd]; simpa [Vec3.get] using hz)]
        rfl
    · rw [boxIntersection,
        if_neg (by rw [hd]; simpa [Vec3.get] using hx),
        if_pos (by rw [hd]; simpa [Vec3.get] using hy)]
      rfl
  · rw [boxIntersection,
      if_pos (by rw [hd]; simpa [Vec3.get] using hx)]
    rfl

theorem negate_direction_ne_zero (r : Ray) (hdir : r.direction ≠ Vec3.zero) :
    r.negate.direction ≠ Vec3.zero := by
  rw [Ray.negate, Ray.make]
  exact Vec3.normalized_ne_zero _ (Vec3.neg_ne_zero _ hdir)

theorem cobjIntersection_isSome (o : CObj) :
    ∀ (r : Ray) (cn : Bool), r.direction ≠ Vec3.zero →
      ∃ h, o.intersection r cn = some h := by
  induction o with
  | prim s m sh =>
      intro r cn hdir
      cases s with
      | box b =>
          obtain ⟨h, hh⟩ := boxIntersection_isSome b r hdir
          exact ⟨_, by rw [CObj.intersection, Solid.intersection, hh]; rfl⟩
      | sphere s => exact ⟨_, rfl⟩
      | plane p => exact ⟨_, rfl⟩
      | icyl c => exact ⟨_, rfl⟩
      | cyl c => exact ⟨_, rfl⟩
  | inv a ih =>
      intro r cn hdir
      obtain ⟨h, hh⟩ := ih r cn hdir
      exact ⟨_, by rw [CObj.intersection, hh]; rfl⟩
  | inter a b ma sa iha ihb =>
      intro r cn hdir
      have hdirb := negate_direction_ne_zero r hdir
      obtain ⟨f1, hf1⟩ := iha r true hdir
      obtain ⟨b1, hb1⟩ := iha r.negate true hdirb
      obtain ⟨f2, hf2⟩ := ihb r true hdir
      obtain ⟨b2, hb2⟩ := ihb r.negate true hdirb
      rw [← Option.isSome_iff_exists]
      rw [show (CObj.inter a b ma sa).intersection r cn =
        (match a.intersection r true with
        | none => none
        | some f1 =>
          match a.intersection r.negate true with
          | none => none
          | some b1 =>
            let inside1 := CObj.insideTest f1 b1 r r.negate
            match b.intersection r true with
            | none => none
            | some f2 =>
              match b.intersection r.negate true with
              | none => none
              | some b2 =>
                let inside2 := CObj.insideTest f2 b2 r r.negate
                let firstSecond :=
                  if CObj.pyOr f1.1 < CObj.pyOr f2.1 then (f1, f2) else (f2, f1)
                some
                  (if inside1 then
                    (if inside2 then firstSecond.1 else f2)
                  else if inside2 then f1
                  else if f1.1 = none ∨ f2.1 = none then (none, none)
                  else firstSecond.2)) from rfl]
      rw [hf1, hb1, hf2, hb2]
      rfl

/-- The evaluated `foldlM` of the naive scene scan, as a pure fold. -/
theorem sceneIntersection_eq_fold (objs : List SceneObj) (r : Ray) (cn : Bool)
    (hdir : r.direction ≠ Vec3.zero) :
    sceneIntersection objs r cn = some (finalize (objs.foldl
      (fun acc io => stepMin acc (candOf r cn io)) accInit)) := by
  rw [sceneIntersection]
  have aux : ∀ (l : List SceneObj) (acc : HitAcc),
      l.foldlM (fun acc io => do
        let h ← io.2.intersection r cn
        pure (stepMin acc ⟨h.1, some io, h.2⟩)) acc =
      some (l.foldl (fun acc io => stepMin acc (candOf r cn io)) acc) := by
    intro l
    induction l with
    | nil => intro acc; rfl
    | cons io ios ih =>
        intro acc
        obtain ⟨h, hh⟩ := cobjIntersection_isSome io.2 r cn hdir
        rw [List.foldlM_cons, hh]
        show (ios.foldlM _ (stepMin acc ⟨h.1, some io, h.2⟩)) = _
        rw [ih (stepMin acc ⟨h.1, some io, h.2⟩), List.foldl_cons]
        rw [show candOf r cn io = ⟨h.1, some io, h.2⟩ from by
          rw [candOf, hh]]
  rw [aux]
  rfl

/-- The evaluated tree walk: with a nonzero ray direction `OTree.run` is
total and computes `treeCand`. -/
theorem treeRun_eq (t : OTree) (r : Ray) (cn : Bool)
    (hdir : r.direction ≠ Vec3.zero) :
    t.run r cn = some (treeCand r cn t) := by
  induction t with
  | leaf io =>
      obtain ⟨h, hh⟩ := cobjIntersection_isSome io.2 r cn hdir
      rw [OTree.run, hh, treeCand, show candOf r cn io = ⟨h.1, some io, h.2⟩
        from by rw [candOf, hh]]
      rfl
  | node bx l r' ihl ihr =>
      obtain ⟨hb, hhb⟩ := boxIntersection_isSome bx r hdir
      rw [show OTree.run (.node bx l r') r cn = (do
          let _ ← boxIntersection bx r
          let cl ← OTree.run l r cn
          let cr ← OTree.run r' r cn
          pure (finalize (stepMin (stepMin accInit cl) cr))) from rfl,
        hhb, ihl, ihr]
      rfl

/-- The distance component of one fold step is a lattice `min`. -/
theorem stepMin_dist (a : HitAcc) (c : HitCand) :
    (stepMin a c).dist = min a.dist (match c.dist with
      | none => INFINITY
      | some d => min d INFINITY) := by
  rcases c with ⟨cd, co, cnm⟩
  cases cd with
  | none => simp [stepMin, INFINITY]
  | some d =>
      simp only [stepMin]
      split_ifs with h
      · simp only [INFINITY]
        rw [min_eq_left le_top, min_eq_right (le_of_lt h)]
      · simp only [INFINITY]
        rw [not_lt] at h
        rw [min_eq_left le_top, min_eq_left h]

/-- The distance accumulated by the fold: the infimum of the candidate
values, capped by the starting accumulator. -/
theorem foldl_stepMin_dist (l : List SceneObj) (r : Ray) (cn : Bool) :
    ∀ (a : HitAcc),
      (l.foldl (fun acc io => stepMin acc (candOf r cn io)) a).dist =
        min a.dist (l.foldr (fun io m => min (candVal r cn io) m) ⊤) := by
  induction l with
  | nil =>
      intro a
      simp
  | cons io ios ih =>
      intro a
      rw [List.foldl_cons, ih, stepMin_dist, List.foldr_cons, candVal,
        min_assoc]

theorem candVal_eq (r : Ray) (cn : Bool) (io : SceneObj) :
    candVal r cn io = cval (candOf r cn io) := rfl

theorem stepMin_dist_cval (a : HitAcc) (c : HitCand) :
    (stepMin a c).dist = min a.dist (cval c) := stepMin_dist a c

theorem cval_finalize (a : HitAcc) : cval (finalize a) = min a.dist ⊤ := by
  rw [finalize, cval]
  split_ifs with h
  · rw [h]
    simp [INFINITY]
  · simp [INFINITY]

theorem foldr_min_append (L R : List SceneObj) (r : Ray) (cn : Bool) :
    (L ++ R).foldr (fun io m => min (candVal r cn io) m) ⊤ =
      min (L.foldr (fun io m => min (candVal r cn io) m) ⊤)
        (R.foldr (fun io m => min (candVal r cn io) m) ⊤) := by
  induction L with
  | nil =>
      simp only [List.nil_append, List.foldr_nil]
      rw [min_comm, min_eq_left le_top]
  | cons io ios ih =>
      simp only [List.cons_append, List.foldr_cons, ih, min_assoc]

theorem cval_treeCand (t : OTree) (r : Ray) (cn : Bool) :
    cval (treeCand r cn t) =
      t.leaves.foldr (fun io m => min (candVal r cn io) m) ⊤ := by
  induction t with
  | leaf io =>
      rw [treeCand, OTree.leaves, List.foldr_cons, List.foldr_nil,
        candVal_eq, min_eq_left le_top]
  | node bx l r' ihl ihr =>
      rw [treeCand, OTree.leaves, cval_finalize, stepMin_dist_cval,
        stepMin_dist_cval, foldr_min_append, ← ihl, ← ihr]
      rw [show accInit.dist = ⊤ from rfl]
      rw [min_comm (⊤ : EReal) (cval (treeCand r cn l)),
        min_eq_left le_top, min_eq_left le_top]

/-- A candidate strictly beyond the accumulated distance never updates the
accumulator. -/
theorem stepMin_keep (a : HitAcc) (c : HitCand) (h : a.dist < cval c) :
    stepMin a c = a := by
  rcases c with ⟨cd, co, cn'⟩
  cases cd with
  | none => rfl
  | some dd =>
      simp only [cval] at h
      have hlt : a.dist < dd := lt_of_lt_of_le h (min_le_left _ _)
      show (if dd < a.dist then (⟨dd, co, cn'⟩ : HitAcc) else a) = a
      exact if_neg (lt_asymm hlt)

/-- A fold of the running minimum over candidates all strictly beyond `m`
stays strictly above `m`. -/
theorem foldr_min_gt (l : List SceneObj) (r : Ray) (cn : Bool) (m : EReal)
    (hm : m < ⊤) (h : ∀ io ∈ l, m < candVal r cn io) :
    m < l.foldr (fun io acc => min (candVal r cn io) acc) ⊤ := by
  induction l with
  | nil => exact hm
  | cons io ios ih =>
      rw [List.foldr_cons]
      exact lt_min (h io (List.mem_cons_self io ios))
        (ih fun jo hjo => h jo (List.mem_cons_of_mem io hjo))

/-- Once the accumulator holds distance `m`, candidates all strictly beyond
`m` leave it untouched. -/
theorem foldl_stepMin_keep (l : List SceneObj) (r : Ray) (cn : Bool)
    (m : EReal) (o : Option SceneObj) (n : Option Vec3)
    (h : ∀ io ∈ l, m < candVal r cn io) :
    l.foldl (fun acc io => stepMin acc (candOf r cn io)) ⟨m, o, n⟩ =
      ⟨m, o, n⟩ := by
  induction l with
  | nil => rfl
  | cons io ios ih =>
      rw [List.foldl_cons,
        stepMin_keep ⟨m, o, n⟩ (candOf r cn io)
          (by rw [← candVal_eq]; exact h io (List.mem_cons_self io ios)),
        ih fun jo hjo => h jo (List.mem_cons_of_mem io hjo)]

/-- A candidate with an actual distance always carries its own object. -/
theorem candOf_eta (r : Ray) (cn : Bool) (io : SceneObj) (m : EReal)
    (h : (candOf r cn io).dist = some m) :
    candOf r cn io = ⟨some m, some io, (candOf r cn io).normal⟩ := by
  rw [candOf] at h ⊢
  cases hi : io.2.intersection r cn with
  | none => rw [hi] at h; exact absurd h (by simp)
  | some hh =>
      rw [hi] at h
      have h' : hh.1 = some m := h
      show HitCand.mk hh.1 (some io) hh.2 = HitCand.mk (some m) (some io) hh.2
      rw [h']

/-- The linear scan's fold lands on the strict minimizer: if `io` hits at
distance `m` strictly below the accumulator and every other candidate in
the list, the fold ends with `io`'s hit. -/
theorem foldl_stepMin_winner (l1 l2 : List SceneObj) (io : SceneObj)
    (r : Ray) (cn : Bool) (m : EReal) (a : HitAcc)
    (hio : (candOf r cn io).dist = some m) (ha : m < a.dist)
    (h1 : ∀ jo ∈ l1, m < candVal r cn jo)
    (h2 : ∀ jo ∈ l2, m < candVal r cn jo) :
    (l1 ++ io :: l2).foldl (fun acc jo => stepMin acc (candOf r cn jo)) a =
      ⟨m, some io, (candOf r cn io).normal⟩ := by
  rw [List.foldl_append, List.foldl_cons]
  have hmt : m < ⊤ := lt_of_lt_of_le ha le_top
  have ha1 : m <
      (l1.foldl (fun acc jo => stepMin acc (candOf r cn jo)) a).dist := by
    rw [foldl_stepMin_dist]
    exact lt_min ha (foldr_min_gt l1 r cn m hmt h1)
  rw [candOf_eta r cn io m hio]
  rw [show stepMin (l1.foldl (fun acc jo => stepMin acc (candOf r cn jo)) a)
        ⟨some m, some io, (candOf r cn io).normal⟩ =
      if m < (l1.foldl (fun acc jo => stepMin acc (candOf r cn jo)) a).dist
        then ⟨m, some io, (candOf r cn io).normal⟩
        else l1.foldl (fun acc jo => stepMin acc (candOf r cn jo)) a
      from rfl, if_pos ha1]
  exact foldl_stepMin_keep l2 r cn m _ _ h2

/-- The tree query lands on the strict minimizer: if leaf `io` hits at
distance `m` strictly below every other leaf's candidate value, the whole
tree's candidate is `io`'s hit. -/
theorem treeCand_winner (r : Ray) (cn : Bool) (io : SceneObj) (m : EReal)
    (hio : (candOf r cn io).dist = some m) (hmt : m < ⊤) :
    ∀ t : OTree, io ∈ t.leaves → t.leaves.Nodup →
      (∀ jo ∈ t.leaves, jo ≠ io → m < candVal r cn jo) →
      treeCand r cn t = ⟨some m, some io, (candOf r cn io).normal⟩ := by
  intro t
  induction t with
  | leaf jo =>
      intro hmem _ _
      rw [OTree.leaves, List.mem_singleton] at hmem
      rw [treeCand, ← hmem, candOf_eta r cn io m hio]
  | node bx l r' ihl ihr =>
      intro hmem hnd hothers
      rw [OTree.leaves] at hmem hnd hothers
      rw [List.nodup_append] at hnd
      obtain ⟨hndl, hndr, hdisj⟩ := hnd
      rw [treeCand]
      rcases List.mem_append.mp hmem with hml | hmr
      · have htl : treeCand r cn l =
            ⟨some m, some io, (candOf r cn io).normal⟩ :=
          ihl hml hndl fun jo hjo hne =>
            hothers jo (List.mem_append_left _ hjo) hne
        have hstep1 : stepMin accInit (treeCand r cn l) =
            ⟨m, some io, (candOf r cn io).normal⟩ := by
          rw [htl]
          show (if m < accInit.dist then
            (⟨m, some io, (candOf r cn io).normal⟩ : HitAcc)
            else accInit) = _
          rw [if_pos (by rw [show accInit.dist = ⊤ from rfl]; exact hmt)]
        have hr' : m < cval (treeCand r cn r') := by
          rw [cval_treeCand]
          exact foldr_min_gt _ r cn m hmt fun jo hjo =>
            hothers jo (List.mem_append_right _ hjo)
              (fun he => hdisj hml (he ▸ hjo))
        rw [hstep1, stepMin_keep _ _ (by exact hr'), finalize]
        exact congrArg (fun d => HitCand.mk d (some io)
          (candOf r cn io).normal) (if_neg (ne_of_lt hmt))
      · have htr : treeCand r cn r' =
            ⟨some m, some io, (candOf r cn io).normal⟩ :=
          ihr hmr hndr fun jo hjo hne =>
            hothers jo (List.mem_append_right _ hjo) hne
        have hl' : m < cval (treeCand r cn l) := by
          rw [cval_treeCand]
          exact foldr_min_gt _ r cn m hmt fun jo hjo =>
            hothers jo (List.mem_append_left _ hjo)
              (fun he => hdisj (he ▸ hjo) hmr)
        have hstep1 : m < (stepMin accInit (treeCand r cn l)).dist := by
          rw [stepMin_dist_cval]
          exact lt_min (by rw [show accInit.dist = ⊤ from rfl]; exact hmt) hl'
        rw [htr]
        rw [show stepMin (stepMin accInit (treeCand r cn l))
              ⟨some m, some io, (candOf r cn io).normal⟩ =
            if m < (stepMin accInit (treeCand r cn l)).dist then
              ⟨m, some io, (candOf r cn io).normal⟩
            else stepMin accInit (treeCand r cn l) from rfl,
          if_pos hstep1, finalize]
        exact congrArg (fun d => HitCand.mk d (some io)
          (candOf r cn io).normal) (if_neg (ne_of_lt hmt))

/-- The running-minimum fold value only depends on the multiset of
candidates. -/
theorem foldr_min_perm (l1 l2 : List SceneObj) (r : Ray) (cn : Bool)
    (hperm : l1.Perm l2) :
    l1.foldr (fun io m => min (candVal r cn io) m) ⊤ =
      l2.foldr (fun io m => min (candVal r cn io) m) ⊤ := by
  induction hperm with
  | nil => rfl
  | cons x _ ih => rw [List.foldr_cons, List.foldr_cons, ih]
  | swap x y l =>
      rw [List.foldr_cons, List.foldr_cons, List.foldr_cons, List.foldr_cons,
        min_left_comm]
  | trans _ _ ih1 ih2 => exact ih1.trans ih2

/-- `pickMin` only rearranges: the chosen tree together with the leftovers
is a permutation of the input. -/
theorem pickMin_perm (key : OTree → EReal) :
    ∀ (t : OTree) (ts : List OTree),
      ((pickMin key t ts).1 :: (pickMin key t ts).2).Perm (t :: ts) := by
  intro t ts
  induction ts generalizing t with
  | nil => exact List.Perm.refl _
  | cons u us ih =>
      rw [pickMin]
      split_ifs with hk
      · show ((pickMin key u us).1 :: t :: (pickMin key u us).2).Perm
          (t :: u :: us)
        exact (List.Perm.swap t (pickMin key u us).1
          (pickMin key u us).2).trans ((ih u).cons t)
      · show ((pickMin key t us).1 :: u :: (pickMin key t us).2).Perm
          (t :: u :: us)
        exact ((List.Perm.swap u (pickMin key t us).1
          (pickMin key t us).2).trans ((ih t).cons u)).trans
          (List.Perm.swap t u us)

/-- A singleton working list ends the agglomeration loop at its only tree,
whatever fuel remains. -/
theorem computeTreeLoop_single (fuel : ℕ) (t : OTree) :
    computeTreeLoop fuel [t] = .ok t := by
  cases fuel <;> rfl

/-- The agglomeration loop only regroups: the leaves of the tree it builds
are a permutation of all leaves of the working list. -/
theorem computeTreeLoop_leaves :
    ∀ (fuel : ℕ) (ts : List OTree) (t : OTree),
      computeTreeLoop fuel ts = .ok t →
      t.leaves.Perm (ts.flatMap OTree.leaves) := by
  intro fuel
  induction fuel with
  | zero =>
      intro ts t h
      match ts with
      | [] => exact absurd h (by rw [computeTreeLoop]; simp)
      | [t0] =>
          rw [computeTreeLoop, Except.ok.injEq] at h
          rw [← h]
          simp
      | t0 :: t1 :: rest => exact absurd h (by rw [computeTreeLoop]; simp)
  | succ fuel ih =>
      intro ts t h
      match ts with
      | [] => exact absurd h (by rw [computeTreeLoop]; simp)
      | [t0] =>
          rw [computeTreeLoop, Except.ok.injEq] at h
          rw [← h]
          simp
      | t0 :: t1 :: rest =>
          rw [computeTreeLoop] at h
          split_ifs at h with hall
          · have h' : computeTreeLoop fuel
                ((pickMin (fun v => ((otreeBoxD t0).combine
                    (otreeBoxD v)).volume) t1 rest).2 ++
                  [OTree.node ((otreeBoxD t0).combine (otreeBoxD
                    (pickMin (fun v => ((otreeBoxD t0).combine
                      (otreeBoxD v)).volume) t1 rest).1)) t0
                    (pickMin (fun v => ((otreeBoxD t0).combine
                      (otreeBoxD v)).volume) t1 rest).1]) = .ok t := h
            have hperm := ih _ t h'
            rw [List.flatMap_append] at hperm
            refine hperm.trans ?_
            rw [show ([OTree.node ((otreeBoxD t0).combine (otreeBoxD
                (pickMin (fun v => ((otreeBoxD t0).combine
                  (otreeBoxD v)).volume) t1 rest).1)) t0
                (pickMin (fun v => ((otreeBoxD t0).combine
                  (otreeBoxD v)).volume) t1 rest).1]).flatMap OTree.leaves =
              t0.leaves ++ (pickMin (fun v => ((otreeBoxD t0).combine
                (otreeBoxD v)).volume) t1 rest).1.leaves from by
              simp [OTree.leaves]]
            rw [show (t0 :: t1 :: rest).flatMap OTree.leaves =
              t0.leaves ++ (t1 :: rest).flatMap OTree.leaves from by
              simp]
            refine (List.perm_append_comm).trans ?_
            rw [List.append_assoc]
            refine List.Perm.append_left t0.leaves ?_
            have hp := (pickMin_perm (fun v => ((otreeBoxD t0).combine
              (otreeBoxD v)).volume) t1 rest).flatMap_right OTree.leaves
            simpa using hp

/-- A tree with at least two leaves is an internal node. -/
theorem otree_node_of_leaves (t : OTree) (h : 2 ≤ t.leaves.length) :
    ∃ bx l r', t = OTree.node bx l r' := by
  cases t with
  | leaf io => exact absurd h (by rw [OTree.leaves]; simp)
  | node bx l r' => exact ⟨bx, l, r', rfl⟩

/-- `_compute_tree` only regroups the scene's objects into a tree. -/
theorem computeTree_leaves (objs : List SceneObj) (t : OTree)
    (h : computeTree objs = .ok t) : t.leaves.Perm objs := by
  have hp := computeTreeLoop_leaves objs.length (objs.map OTree.leaf) t h
  refine hp.trans ?_
  rw [List.flatMap_map]
  rw [show (objs.flatMap fun a => OTree.leaves (OTree.leaf a)) =
    objs.flatMap fun a => [a] from rfl]
  simp

theorem finalize_dist_congr (a b : HitAcc) (h : a.dist = b.dist) :
    (finalize a).dist = (finalize b).dist := by
  rw [finalize, finalize]
  show (if a.dist = INFINITY then none else some a.dist) =
    (if b.dist = INFINITY then none else some b.dist)
  rw [h]

/-- Claim C2 (amended): for every scene of at least two objects whose tree
build succeeds and every ray with a nonzero direction, the naive scan
`Scene.intersection` and the tree query `Scene.intersection_old` both
return (no exception), report no hit for exactly the same rays, and agree
exactly on the hit distance; when moreover the scene has no duplicate
objects and some object's hit distance is finite and strictly below every
other object's candidate distance, both queries return that same object
identically.  (The original claim — identical results for *every* scene
and ray — fails: scenes with fewer than two objects crash the tree query,
and distance ties can resolve to different objects; see the counterexample
theorem.) -/
theorem scene_tree_equivalence (objs : List SceneObj) (r : Ray) (cn : Bool)
    (t : OTree) (hbuild : computeTree objs = .ok t) (hlen : 2 ≤ objs.length)
    (hdir : r.direction ≠ Vec3.zero) :
    ∃ hn ht : HitCand,
      sceneIntersection objs r cn = some hn ∧
      sceneIntersectionOld objs r cn = some ht ∧
      ht.dist = hn.dist ∧
      ∀ (io : SceneObj) (m : EReal), objs.Nodup → io ∈ objs →
        (candOf r cn io).dist = some m → m < ⊤ →
        (∀ jo ∈ objs, jo ≠ io → m < candVal r cn jo) →
        ht.obj = some io ∧ hn = ht := by
  have hperm : t.leaves.Perm objs := computeTree_leaves objs t hbuild
  have hlen2 : 2 ≤ t.leaves.length := by rw [hperm.length_eq]; exact hlen
  obtain ⟨bx, l, r', hshape⟩ := otree_node_of_leaves t hlen2
  subst hshape
  refine ⟨finalize (objs.foldl (fun acc jo => stepMin acc (candOf r cn jo))
      accInit), treeCand r cn (OTree.node bx l r'),
    sceneIntersection_eq_fold objs r cn hdir, ?_, ?_, ?_⟩
  · rw [sceneIntersectionOld, if_neg (not_lt.mpr hlen), hbuild]
    exact treeRun_eq _ r cn hdir
  · rw [treeCand]
    refine finalize_dist_congr _ _ ?_
    rw [stepMin_dist_cval, stepMin_dist_cval, cval_treeCand, cval_treeCand,
      show accInit.dist = (⊤ : EReal) from rfl, min_eq_right le_top,
      ← foldr_min_append, foldl_stepMin_dist,
      show accInit.dist = (⊤ : EReal) from rfl, min_eq_right le_top]
    exact foldr_min_perm _ _ r cn hperm
  · intro io m hnodup hio hdio hmt hothers
    obtain ⟨l1, l2, hdecomp⟩ := List.append_of_mem hio
    have hnodup2 := hnodup
    rw [hdecomp, List.nodup_append, List.nodup_cons] at hnodup2
    obtain ⟨hnd1, ⟨hio2, hnd2⟩, hdisj⟩ := hnodup2
    have hio1 : io ∉ l1 := fun hmem => hdisj hmem (List.mem_cons_self _ _)
    have hfold : objs.foldl (fun acc jo => stepMin acc (candOf r cn jo))
        accInit = ⟨m, some io, (candOf r cn io).normal⟩ := by
      rw [hdecomp]
      refine foldl_stepMin_winner l1 l2 io r cn m accInit hdio
        (by rw [show accInit.dist = (⊤ : EReal) from rfl]; exact hmt) ?_ ?_
      · intro jo hjo
        refine hothers jo (by rw [hdecomp]; exact List.mem_append_left _ hjo)
          (fun he => hio1 (he ▸ hjo))
      · intro jo hjo
        have hmem : jo ∈ objs := by
          rw [hdecomp]
          exact List.mem_append_right _ (List.mem_cons_of_mem _ hjo)
        exact hothers jo hmem (fun he => hio2 (he ▸ hjo))
    have htree : treeCand r cn (OTree.node bx l r') =
        ⟨some m, some io, (candOf r cn io).normal⟩ :=
      treeCand_winner r cn io m hdio hmt _ (hperm.mem_iff.mpr hio)
        (hperm.nodup_iff.mpr hnodup)
        (fun jo hjo hne => hothers jo (hperm.mem_iff.mp hjo) hne)
    refine ⟨by rw [htree], ?_⟩
    rw [htree, hfold, finalize]
    show HitCand.mk (if m = INFINITY then none else some m) (some io)
      (candOf r cn io).normal = _
    rw [if_neg (by rw [INFINITY]; exact ne_of_lt hmt)]

theorem computeTree_eqScene : computeTree eqScene = .ok eqTree := by
  have hcond : ((eqScene.map OTree.leaf)).Forall otreeBoxOk :=
    ⟨⟨_, rfl⟩, ⟨_, rfl⟩⟩
  rw [computeTree,
    show computeTreeLoop eqScene.length (eqScene.map OTree.leaf) =
      (if (eqScene.map OTree.leaf).Forall otreeBoxOk then
        computeTreeLoop 1 [eqTree] else .error ()) from rfl,
    if_pos hcond]
  rfl

/-- Witness for C2: the equivalence theorem applied to the two-sphere scene
`eqScene`, the tree `_compute_tree` builds for it, and the ray from the
origin along `+x`. -/
theorem scene_tree_equivalence_witness :
    ∃ hn ht : HitCand,
      sceneIntersection eqScene shadowRay false = some hn ∧
      sceneIntersectionOld eqScene shadowRay false = some ht ∧
      ht.dist = hn.dist ∧
      ∀ (io : SceneObj) (m : EReal), eqScene.Nodup → io ∈ eqScene →
        (candOf shadowRay false io).dist = some m → m < ⊤ →
        (∀ jo ∈ eqScene, jo ≠ io → m < candVal shadowRay false jo) →
        ht.obj = some io ∧ hn = ht :=
  scene_tree_equivalence eqScene shadowRay false eqTree computeTree_eqScene
    (by norm_num [eqScene])
    (fun h => one_ne_zero (congrArg Vec3.x h))

/-- Counterexample to the original claim C2: on a scene with a single
object the naive `Scene.intersection` returns its hit, but
`Scene.intersection_old` never does — `_compute_tree` declines to build a
tree for fewer than two objects, leaving `self.tree = None`, so
`self.tree.print()` raises `AttributeError` (`none` here).  The two queries
therefore do not produce identical results for every scene and ray. -/
theorem scene_tree_single_object_divergence :
    sceneIntersectionOld shadowScene shadowRay false = none ∧
    sceneIntersection shadowScene shadowRay false =
      some ⟨some ((2 : ℝ) : EReal),
        some (0, CObj.prim (Solid.sphere shadowSphere) none none), none⟩ :=
  ⟨by rw [sceneIntersectionOld, if_pos (by norm_num [shadowScene])],
   shadow_scene_nearest⟩

end Raytrace
